import Mathlib

/-!
# Smart lighting and motion controller (PIC16F877A)

A shallow embedding of `MicroProjectCode.c`: the bit-banged 4-bit LCD driver
(`LCD_Cmd`, `LCD_Char`, `LCD_String`, `LCD_Clear`, `LCD_Goto`, `Clear_Line`),
the number formatter `Display_Number`, the ADC driver (`ADC_Init`, `ADC_Read`),
and the body of the polling loop of `main`.

Conventions.

* XC8 for the PIC16: `unsigned char` is 8 bits, `int` and `unsigned int` are
  16 bits, `unsigned long` is 32 bits.  Machine integers are natural numbers
  with the reduction written out where the C conversion reduces.
* A port bit (`PORTDbits.RD2`, `PORTBbits.RB4`, ...) is a `Bool`; storing an
  integer into a one-bit field keeps its lowest bit (`bitOf`), reading it in an
  integer expression gives `0` or `1` (`Bool.toNat`).
* Every store to one of the six LCD lines is appended to a record of writes, so
  that the wave form the display sees can be replayed (`latches`) and decoded
  into the bytes the display latched (`transfers`).
* Busy-wait delays (`__delay_ms`, `__delay_us`) change no state and are left out.
* What the hardware supplies is an input: the level of the motion pin, the
  sample returned by `ADC_Read(0)` in the polling loop, and, for `ADC_Read`
  itself, the result bytes the converter leaves when it clears `GO_nDONE`.
-/

namespace SmartHome

/-! ## Machine integers and port bits -/

/-- Conversion of an integer value to `unsigned int` (16 bits). -/
def wrap16 (x : Int) : Nat := (x % 65536).toNat

/-- Conversion of an integer value to `unsigned char` (8 bits). -/
def wrap8 (x : Int) : Nat := (x % 256).toNat

/-- Bit kept when an integer value is stored into a one-bit port field. -/
def bitOf (v : Nat) : Bool := decide (v % 2 = 1)

/-! ## The LCD lines on PORTD -/

/-- The six PORTD lines wired to the display. -/
inductive Line where
  | RS | EN | D4 | D5 | D6 | D7
  deriving DecidableEq

/-- Levels of the six LCD lines (`LCD_RS` = RD2, `LCD_EN` = RD3, `LCD_D4..7` = RD4..7). -/
structure Lines where
  LCD_RS : Bool
  LCD_EN : Bool
  LCD_D4 : Bool
  LCD_D5 : Bool
  LCD_D6 : Bool
  LCD_D7 : Bool
  deriving DecidableEq

/-- Drive one line to a level. -/
def Lines.drive (p : Lines) : Line → Bool → Lines
  | .RS, b => { p with LCD_RS := b }
  | .EN, b => { p with LCD_EN := b }
  | .D4, b => { p with LCD_D4 := b }
  | .D5, b => { p with LCD_D5 := b }
  | .D6, b => { p with LCD_D6 := b }
  | .D7, b => { p with LCD_D7 := b }

/-- Value presented on D7..D4, D7 being the most significant bit. -/
def Lines.nibble (p : Lines) : Nat :=
  8 * p.LCD_D7.toNat + 4 * p.LCD_D6.toNat + 2 * p.LCD_D5.toNat + p.LCD_D4.toNat

/-- The display side of PORTD: current line levels and every store made to an
LCD line so far, oldest first. -/
structure PortD where
  lines : Lines
  writes : List (Line × Bool)
  deriving DecidableEq

/-- The C statement `LINE = v;` for an LCD line. -/
def PortD.set (p : PortD) (l : Line) (v : Nat) : PortD :=
  { lines := p.lines.drive l (bitOf v), writes := p.writes ++ [(l, bitOf v)] }

/-! ## Display driver -/

/-- Source `LCD_Cmd` (lines 88-104). -/
def LCD_Cmd (cmd : Nat) (p : PortD) : PortD :=
  let p := p.set .RS 0
  let p := p.set .D4 ((cmd >>> 4) &&& 0x01)
  let p := p.set .D5 ((cmd >>> 5) &&& 0x01)
  let p := p.set .D6 ((cmd >>> 6) &&& 0x01)
  let p := p.set .D7 ((cmd >>> 7) &&& 0x01)
  let p := p.set .EN 1
  let p := p.set .EN 0
  let p := p.set .D4 (cmd &&& 0x01)
  let p := p.set .D5 ((cmd >>> 1) &&& 0x01)
  let p := p.set .D6 ((cmd >>> 2) &&& 0x01)
  let p := p.set .D7 ((cmd >>> 3) &&& 0x01)
  let p := p.set .EN 1
  p.set .EN 0

/-- Source `LCD_Char` (lines 107-123). -/
def LCD_Char (data : Nat) (p : PortD) : PortD :=
  let p := p.set .RS 1
  let p := p.set .D4 ((data >>> 4) &&& 0x01)
  let p := p.set .D5 ((data >>> 5) &&& 0x01)
  let p := p.set .D6 ((data >>> 6) &&& 0x01)
  let p := p.set .D7 ((data >>> 7) &&& 0x01)
  let p := p.set .EN 1
  let p := p.set .EN 0
  let p := p.set .D4 (data &&& 0x01)
  let p := p.set .D5 ((data >>> 1) &&& 0x01)
  let p := p.set .D6 ((data >>> 2) &&& 0x01)
  let p := p.set .D7 ((data >>> 3) &&& 0x01)
  let p := p.set .EN 1
  p.set .EN 0

/-- Source `LCD_String` (lines 126-130).  The argument is the bytes stored from
`str` on; the end of the list stands for the terminator that closes every
string literal, so the walk stops at the first zero byte or at the end. -/
def LCD_String : List Nat → PortD → PortD
  | [], p => p
  | c :: str, p => if c ≠ 0 then LCD_String str (LCD_Char c p) else p

/-- Bytes of a string literal, terminator left out. -/
def cstr (s : String) : List Nat := s.toList.map Char.toNat

/-- Source `LCD_Clear` (lines 133-136). -/
def LCD_Clear (p : PortD) : PortD := LCD_Cmd 0x01 p

/-- Source `LCD_Goto` (lines 139-147); `address` is an `unsigned char`, the sum
is computed in `int`.  `row` and `col` stand for the values of the two
`unsigned char` parameters, so they range over 0..255. -/
def LCD_Goto (row col : Nat) (p : PortD) : PortD :=
  let address :=
    if row = 1 then wrap8 (0x80 + ((col : Int) - 1))
    else wrap8 (0xC0 + ((col : Int) - 1))
  LCD_Cmd address p

/-- Source `Clear_Line` (lines 150-153). -/
def Clear_Line (line : Nat) (p : PortD) : PortD :=
  let p := LCD_Goto line 1 p
  LCD_String (cstr "                ") p

/-! ## Number formatter -/

/-- The local `unsigned char buffer[6]`; `none` marks a cell never stored to. -/
abbrev Buffer := List (Option Nat)

/-- The fresh, uninitialised `buffer[6]`. -/
def Buffer.fresh : Buffer := List.replicate 6 none

/-- `buffer[i] = v`; fails outside the array. -/
def Buffer.store (buf : Buffer) (i v : Nat) : Option Buffer :=
  if i < buf.length then some (buf.set i (some v)) else none

/-- Read of `buffer[i]`; fails outside the array and on a cell never stored to. -/
def Buffer.load (buf : Buffer) (i : Nat) : Option Nat := buf[i]?.join

/-- First loop of `Display_Number` (lines 165-168): `while(num > 0)`.  The first
argument bounds the number of iterations; `none` is a fault (store outside the
buffer) or an exhausted bound. -/
def Display_Number_pack : Nat → Nat → Buffer → Nat → Option (Buffer × Nat)
  | 0, num, buf, i => if num > 0 then none else some (buf, i)
  | fuel + 1, num, buf, i =>
    if num > 0 then
      match buf.store i (wrap8 ((num % 10 : Nat) + 48)) with
      | none => none
      | some buf => Display_Number_pack fuel (num / 10) buf (wrap8 ((i : Int) + 1))
    else some (buf, i)

/-- Second loop of `Display_Number` (lines 170-172): `while(i > 0)`. -/
def Display_Number_emit : Nat → Buffer → Nat → PortD → Option PortD
  | 0, _, i, p => if i > 0 then none else some p
  | fuel + 1, buf, i, p =>
    if i > 0 then
      let i := wrap8 ((i : Int) - 1)
      match buf.load i with
      | none => none
      | some c => Display_Number_emit fuel buf i (LCD_Char c p)
    else some p

/-- Source `Display_Number` (lines 156-173).  The first loop divides `num` by
ten each round, so `num` rounds are enough; the second counts `i` down. -/
def Display_Number (num : Nat) (p : PortD) : Option PortD :=
  if num = 0 then some (LCD_Char 48 p)
  else
    match Display_Number_pack num num Buffer.fresh 0 with
    | none => none
    | some (buf, i) => Display_Number_emit i buf i p

/-! ## Polling loop of `main` -/

/-- Line 222: `100 - (unsigned int)((unsigned long)adc_value * 100 / 1023)`. -/
def light_percentage (adc_value : Nat) : Nat :=
  wrap16 (100 - ((adc_value * 100 % 2 ^ 32 / 1023 % 65536 : Nat) : Int))

/-- Globals and port bits the polling loop works on.  The locals `adc_value` and
`light_percentage` are assigned afresh in every round before they are read, so
they carry nothing from one round to the next.  A read of an LED bit gives the
level last stored to it. -/
structure LoopState where
  portd : PortD
  LIGHT_LED : Bool
  MOTION_LED : Bool
  motion_detected : Nat
  previous_motion : Nat
  previous_light : Nat
  previous_light_led : Nat
  previous_motion_led : Nat
  deriving DecidableEq

/-- Lines 221-236 of `main`: set both LEDs from the sample returned by
`ADC_Read(0)` and from the level of the motion sensor pin. -/
def main_sense (adc_value : Nat) (MOTION_SENSOR : Bool) (st : LoopState) : LoopState :=
  let st := if light_percentage adc_value < 50 then { st with LIGHT_LED := bitOf 1 }
            else { st with LIGHT_LED := bitOf 0 }
  let st := { st with motion_detected := MOTION_SENSOR.toNat }
  if st.motion_detected ≠ 0 then { st with MOTION_LED := bitOf 1 }
  else { st with MOTION_LED := bitOf 0 }

/-- Lines 238-247 of `main`: the gate on display line 1. -/
def main_line1 (light_percentage : Nat) (st : LoopState) : Option LoopState :=
  if light_percentage ≠ st.previous_light ∨ st.motion_detected ≠ st.previous_motion then
    let d := Clear_Line 1 st.portd
    let d := LCD_Goto 1 1 d
    let d := LCD_String (cstr "L:") d
    match Display_Number light_percentage d with
    | none => none
    | some d =>
      let d := LCD_String (cstr "% M:") d
      let d := if st.motion_detected ≠ 0 then LCD_String (cstr "YES") d
               else LCD_String (cstr "NO ") d
      some { st with portd := d, previous_light := light_percentage,
                     previous_motion := st.motion_detected }
  else some st

/-- Lines 249-258 of `main`: the gate on display line 2. -/
def main_line2 (st : LoopState) : Option LoopState :=
  if st.LIGHT_LED.toNat ≠ st.previous_light_led ∨
      st.MOTION_LED.toNat ≠ st.previous_motion_led then
    let d := Clear_Line 2 st.portd
    let d := LCD_Goto 2 1 d
    let d := LCD_String (cstr "LT:") d
    let d := if st.LIGHT_LED then LCD_String (cstr "ON ") d else LCD_String (cstr "OFF") d
    let d := LCD_String (cstr " MT:") d
    let d := if st.MOTION_LED then LCD_String (cstr "ON") d else LCD_String (cstr "OFF") d
    some { st with portd := d, previous_light_led := st.LIGHT_LED.toNat,
                   previous_motion_led := st.MOTION_LED.toNat }
  else some st

/-- One round of `while(1)` in `main` (lines 219-260). -/
def main_loop (adc_value : Nat) (MOTION_SENSOR : Bool) (st : LoopState) : Option LoopState :=
  match main_line1 (light_percentage adc_value) (main_sense adc_value MOTION_SENSOR st) with
  | none => none
  | some st => main_line2 st

/-- PORTD after `PORTD = 0x00` (line 182): every LCD line low, no store recorded. -/
def PortD.low : PortD := ⟨⟨false, false, false, false, false, false⟩, []⟩

/-- Lines 208-217 of `main`: both LEDs off, the four shadow values zero, display
cleared; `motion_detected` still holds its initial value 0. -/
def main_reset (p : PortD) : LoopState :=
  { portd := LCD_Clear p, LIGHT_LED := bitOf 0, MOTION_LED := bitOf 0, motion_detected := 0,
    previous_motion := 0, previous_light := 0, previous_light_led := 0,
    previous_motion_led := 0 }

/-! ## What the display sees -/

/-- One falling edge of the enable line: the register-select level and the
nibble on D7..D4 at that moment. -/
structure Latch where
  rs : Bool
  nibble : Nat
  deriving DecidableEq

/-- Replay a record of writes from given line levels and collect what the
display latches: one entry per store that takes `LCD_EN` from high to low. -/
def latches : Lines → List (Line × Bool) → List Latch
  | _, [] => []
  | p, (l, b) :: ws =>
    if p.LCD_EN = true ∧ (p.drive l b).LCD_EN = false then
      ⟨p.LCD_RS, p.nibble⟩ :: latches (p.drive l b) ws
    else latches (p.drive l b) ws

/-- A byte received by the display in 4-bit mode. -/
inductive Transfer where
  | command (code : Nat)
  | character (code : Nat)
  deriving DecidableEq

/-- Pair the latched nibbles, high nibble first, into bytes; `none` when a
nibble is left over or the two halves of a byte disagree on register-select. -/
def transfers : List Latch → Option (List Transfer)
  | [] => some []
  | [_] => none
  | hi :: lo :: rest =>
    if hi.rs = lo.rs then
      match transfers rest with
      | none => none
      | some ts =>
        some ((if hi.rs then Transfer.character (16 * hi.nibble + lo.nibble)
               else Transfer.command (16 * hi.nibble + lo.nibble)) :: ts)
    else none

/-- Stores made to the LCD lines between two states of the port. -/
def emitted (before after : PortD) : List (Line × Bool) :=
  after.writes.drop before.writes.length

/-- Bytes the display received between two states of the port. -/
def traffic (before after : PortD) : Option (List Transfer) :=
  transfers (latches before.lines (emitted before after))

/-! ## Reference renderings -/

/-- Decimal numeral of `n` as character codes, most significant digit first. -/
def decimal (n : Nat) : List Nat :=
  if n = 0 then [48] else ((Nat.digits 10 n).reverse.map (· + 48))

/-! ## Auxiliary descriptions used in the proofs -/

/-- Issue a list of bytes through the driver, `LCD_Cmd` for a command and
`LCD_Char` for a character, in order. -/
def issue : List Transfer → PortD → PortD
  | [], p => p
  | Transfer.command c :: ts, p => issue ts (LCD_Cmd c p)
  | Transfer.character c :: ts, p => issue ts (LCD_Char c p)

/-- The byte carried by a transfer. -/
def Transfer.code : Transfer → Nat
  | .command c => c
  | .character c => c

/-- The register-select level of a transfer. -/
def Transfer.isChar : Transfer → Bool
  | .command _ => false
  | .character _ => true

/-- The thirteen stores one byte transfer makes, in program order. -/
def sendWrites (rs : Bool) (b : Nat) : List (Line × Bool) :=
  [(.RS, rs),
   (.D4, bitOf ((b >>> 4) &&& 1)), (.D5, bitOf ((b >>> 5) &&& 1)),
   (.D6, bitOf ((b >>> 6) &&& 1)), (.D7, bitOf ((b >>> 7) &&& 1)),
   (.EN, true), (.EN, false),
   (.D4, bitOf (b &&& 1)), (.D5, bitOf ((b >>> 1) &&& 1)),
   (.D6, bitOf ((b >>> 2) &&& 1)), (.D7, bitOf ((b >>> 3) &&& 1)),
   (.EN, true), (.EN, false)]

/-- Line levels left behind by one byte transfer. -/
def sendLines (rs : Bool) (b : Nat) : Lines :=
  { LCD_RS := rs, LCD_EN := false,
    LCD_D4 := bitOf (b &&& 1), LCD_D5 := bitOf ((b >>> 1) &&& 1),
    LCD_D6 := bitOf ((b >>> 2) &&& 1), LCD_D7 := bitOf ((b >>> 3) &&& 1) }

/-- Stores made by a list of transfers. -/
def issueWrites : List Transfer → List (Line × Bool)
  | [] => []
  | t :: ts => sendWrites t.isChar t.code ++ issueWrites ts

/-- Character transfers for a list of character codes. -/
def chars (cs : List Nat) : List Transfer := cs.map Transfer.character

/-- Text of display line 1 for a percentage and a motion state. -/
def line1_text (percentage : Nat) (motion : Bool) : List Nat :=
  cstr "L:" ++ decimal percentage ++ cstr "% M:" ++ cstr (if motion then "YES" else "NO ")

/-- Text of display line 2 for the two LED states. -/
def line2_text (light motion : Bool) : List Nat :=
  cstr "LT:" ++ cstr (if light then "ON " else "OFF") ++ cstr " MT:" ++
    cstr (if motion then "ON" else "OFF")

/-- Bytes of a full rewrite of one display line: the address of column 1, sixteen
blanks, the address of column 1 again, then the text. -/
def rewrite_traffic (address : Nat) (text : List Nat) : List Transfer :=
  Transfer.command address :: chars (List.replicate 16 32) ++
    Transfer.command address :: chars text

/-- State left by the gate on line 1, as a total function. -/
def after_line1 (lp : Nat) (st : LoopState) : LoopState :=
  if lp ≠ st.previous_light ∨ st.motion_detected ≠ st.previous_motion then
    { st with
      portd := issue (rewrite_traffic 0x80 (line1_text lp (decide (st.motion_detected ≠ 0))))
        st.portd
      previous_light := lp
      previous_motion := st.motion_detected }
  else st

/-- State left by the gate on line 2, as a total function. -/
def after_line2 (st : LoopState) : LoopState :=
  if st.LIGHT_LED.toNat ≠ st.previous_light_led ∨
      st.MOTION_LED.toNat ≠ st.previous_motion_led then
    { st with
      portd := issue (rewrite_traffic 0xC0 (line2_text st.LIGHT_LED st.MOTION_LED)) st.portd
      previous_light_led := st.LIGHT_LED.toNat
      previous_motion_led := st.MOTION_LED.toNat }
  else st

/-! ## ADC driver -/

/-- The special function registers the ADC driver touches, each 8 bits wide.
`GO_nDONE` is bit 2 of `ADCON0`; the channel-select bits are bits 5..3. -/
structure AdcRegs where
  ADCON0 : Nat
  ADCON1 : Nat
  TRISA : Nat
  ADRESH : Nat
  ADRESL : Nat
  deriving DecidableEq

/-- Source `ADC_Init` (lines 49-54). -/
def ADC_Init (r : AdcRegs) : AdcRegs :=
  { r with ADCON1 := 0x8E, ADCON0 := 0x41, TRISA := 0x01 }

/-- Lines 59-61 of `ADC_Read`: select the channel (the right-hand side is an
`int`, the register keeps its low 8 bits), then `GO_nDONE = 1`. -/
def ADC_Read_start (channel : Nat) (r : AdcRegs) : AdcRegs :=
  let r := { r with ADCON0 := ((r.ADCON0 &&& 0xC7) ||| (channel <<< 3)) % 256 }
  { r with ADCON0 := r.ADCON0 ||| 0x04 }

/-- Line 62 of `ADC_Read`, `while(GO_nDONE);`.  The converter is outside the
program: `polls` is the number of times the loop still reads the bit as 1, after
which the converter has cleared `GO_nDONE` and left its result in
`ADRESH:ADRESL`. -/
def ADC_Read_wait : Nat → Nat → Nat → AdcRegs → AdcRegs
  | 0, hi, lo, r => { r with ADCON0 := r.ADCON0 &&& 0xFB, ADRESH := hi, ADRESL := lo }
  | polls + 1, hi, lo, r => ADC_Read_wait polls hi lo r

/-- Source `ADC_Read` (lines 57-65); `polls`, `hi`, `lo` describe the conversion
that the converter performs.  The sum is computed in `int` and returned as
`unsigned int`. -/
def ADC_Read (channel : Nat) (polls hi lo : Nat) (r : AdcRegs) : Nat × AdcRegs :=
  let r := ADC_Read_start channel r
  let r := ADC_Read_wait polls hi lo r
  (wrap16 (((r.ADRESH <<< 8 : Nat) : Int) + (r.ADRESL : Int)), r)

/-! ## Buffer accesses of the number formatter -/

/-- One access to `buffer` in `Display_Number`. -/
inductive Access where
  | store (i : Nat)
  | load (i : Nat)
  deriving DecidableEq

/-- The loop `Display_Number_pack`, recording each `buffer[i++] = ...`. -/
def Display_Number_pack_log :
    Nat → Nat → Buffer → Nat → List Access → Option (Buffer × Nat × List Access)
  | 0, num, buf, i, log => if num > 0 then none else some (buf, i, log)
  | fuel + 1, num, buf, i, log =>
    if num > 0 then
      match buf.store i (wrap8 ((num % 10 : Nat) + 48)) with
      | none => none
      | some buf =>
        Display_Number_pack_log fuel (num / 10) buf (wrap8 ((i : Int) + 1))
          (log ++ [Access.store i])
    else some (buf, i, log)

/-- The loop `Display_Number_emit`, recording each read of `buffer[--i]`. -/
def Display_Number_emit_log :
    Nat → Buffer → Nat → PortD → List Access → Option (PortD × List Access)
  | 0, _, i, p, log => if i > 0 then none else some (p, log)
  | fuel + 1, buf, i, p, log =>
    if i > 0 then
      let i := wrap8 ((i : Int) - 1)
      match buf.load i with
      | none => none
      | some c => Display_Number_emit_log fuel buf i (LCD_Char c p) (log ++ [Access.load i])
    else some (p, log)

/-- Source `Display_Number` with the record of its buffer accesses, in program
order. -/
def Display_Number_log (num : Nat) (p : PortD) : Option (PortD × List Access) :=
  if num = 0 then some (LCD_Char 48 p, [])
  else
    match Display_Number_pack_log num num Buffer.fresh 0 [] with
    | none => none
    | some (buf, i, log) => Display_Number_emit_log i buf i p log

/-! ## Runs of the polling loop -/

/-- Successive rounds of `while(1)`, one per input pair (sample, motion pin). -/
def main_run : List (Nat × Bool) → LoopState → Option LoopState
  | [], st => some st
  | (adc_value, MOTION_SENSOR) :: rest, st =>
    match main_loop adc_value MOTION_SENSOR st with
    | none => none
    | some st => main_run rest st

/-! ## Display cursor -/

/-- Modelled from the spec: the display itself (hardware, no source).  Section
4.2: `goto` issues the cell address as a command, and a character is placed at
the cursor, which then advances by one.  Cells are named by their address
command (`0x80..` for row 1, `0xC0..` for row 2); any other command leaves the
cursor unknown to this model.  The result lists the cell of each character
written, in order. -/
def cells_written : Option Nat → List Transfer → List (Option Nat)
  | _, [] => []
  | _, Transfer.command c :: ts =>
    if 0x80 ≤ c then cells_written (some c) ts else cells_written none ts
  | cursor, Transfer.character _ :: ts => cursor :: cells_written (cursor.map (· + 1)) ts

/-- Bus bytes of successive rewrites of line 1 without motion, one per listed
percentage. -/
def line1_rewrites : List Nat → List Transfer
  | [] => []
  | lp :: rest => rewrite_traffic 0x80 (line1_text lp false) ++ line1_rewrites rest

/-- Bus bytes of `n` successive rewrites of line 2 with the light LED on and the
motion LED off. -/
def line2_rewrites : Nat → List Transfer
  | 0 => []
  | n + 1 => rewrite_traffic 0xC0 (line2_text true false) ++ line2_rewrites n

/-! ## Lemmas on the byte transfer -/

theorem bitOf_toNat (v : Nat) : (bitOf v).toNat = v % 2 := by
  unfold bitOf
  rcases Nat.mod_two_eq_zero_or_one v with h | h <;> simp [h]

theorem bitOf_zero : bitOf 0 = false := by decide

theorem bitOf_one : bitOf 1 = true := by decide

theorem LCD_Cmd_eq (cmd : Nat) (p : PortD) :
    LCD_Cmd cmd p = ⟨sendLines false cmd, p.writes ++ sendWrites false cmd⟩ := by
  simp [LCD_Cmd, PortD.set, Lines.drive, sendLines, sendWrites, bitOf_zero, bitOf_one]

theorem LCD_Char_eq (data : Nat) (p : PortD) :
    LCD_Char data p = ⟨sendLines true data, p.writes ++ sendWrites true data⟩ := by
  simp [LCD_Char, PortD.set, Lines.drive, sendLines, sendWrites, bitOf_zero, bitOf_one]

theorem latches_sendWrites (rs : Bool) (b : Nat) (p : Lines) (ws : List (Line × Bool)) :
    latches p (sendWrites rs b ++ ws) =
      ⟨rs, b / 16 % 16⟩ :: ⟨rs, b % 16⟩ :: latches (sendLines rs b) ws := by
  have hi : 8 * (b / 128 % 2) + 4 * (b / 64 % 2) + 2 * (b / 32 % 2) + b / 16 % 2
      = b / 16 % 16 := by omega
  have lo : 8 * (b / 8 % 2) + 4 * (b / 4 % 2) + 2 * (b / 2 % 2) + b % 2 = b % 16 := by omega
  simp [sendWrites, latches, Lines.drive, Lines.nibble, sendLines, bitOf_toNat,
    Nat.shiftRight_eq_div_pow, Nat.and_one_is_mod, hi, lo]

theorem issue_writes (ts : List Transfer) (p : PortD) :
    (issue ts p).writes = p.writes ++ issueWrites ts := by
  induction ts generalizing p with
  | nil => simp [issue, issueWrites]
  | cons t ts ih =>
    cases t <;>
      simp [issue, issueWrites, ih, LCD_Cmd_eq, LCD_Char_eq, Transfer.isChar, Transfer.code]

theorem issue_append (ts us : List Transfer) (p : PortD) :
    issue (ts ++ us) p = issue us (issue ts p) := by
  induction ts generalizing p with
  | nil => rfl
  | cons t ts ih => cases t <;> simp [issue, ih]

theorem transfers_issueWrites (ts : List Transfer) (h : ∀ t ∈ ts, t.code < 256) (p : Lines) :
    transfers (latches p (issueWrites ts)) = some ts := by
  induction ts generalizing p with
  | nil => simp [issueWrites, latches, transfers]
  | cons t ts ih =>
    have ht : t.code < 256 := h t (List.mem_cons_self _ _)
    have hts : ∀ u ∈ ts, u.code < 256 := fun u hu => h u (List.mem_cons_of_mem _ hu)
    have hb : 16 * (t.code / 16 % 16) + t.code % 16 = t.code := by omega
    cases t <;>
      simp_all [issueWrites, latches_sendWrites, transfers, Transfer.isChar, Transfer.code]

theorem traffic_issue (ts : List Transfer) (h : ∀ t ∈ ts, t.code < 256) (p : PortD) :
    traffic p (issue ts p) = some ts := by
  simp [traffic, emitted, issue_writes, transfers_issueWrites ts h]

theorem traffic_self (p : PortD) : traffic p p = some [] := by
  simp [traffic, emitted, latches, transfers]

/-! ## Lemmas on strings and numbers -/

theorem LCD_String_eq (str : List Nat) (p : PortD) :
    LCD_String str p = issue (chars (str.takeWhile (· ≠ 0))) p := by
  induction str generalizing p with
  | nil => rfl
  | cons c str ih =>
    by_cases hc : c = 0
    · simp [LCD_String, hc, chars, issue]
    · simp [LCD_String, hc, chars, issue, ih]

theorem load_set (buf : Buffer) (i j v : Nat) (h : i < buf.length) :
    Buffer.load (buf.set i (some v)) j = if i = j then some v else Buffer.load buf j := by
  unfold Buffer.load
  rw [List.getElem?_set]
  split <;> simp [h]

theorem digits_length_le (n k : Nat) (h : n < 10 ^ k) : (Nat.digits 10 n).length ≤ k := by
  by_cases h0 : n = 0
  · simp [h0]
  · have h1 := Nat.base_pow_length_digits_le 10 n (by norm_num) h0
    by_contra hlen
    have h2 : 10 ^ (k + 1) ≤ 10 ^ (Nat.digits 10 n).length :=
      Nat.pow_le_pow_right (by norm_num) (by omega)
    rw [pow_succ] at h2
    omega

theorem digits_length_le_five (n : Nat) (h : n < 65536) : (Nat.digits 10 n).length ≤ 5 :=
  digits_length_le n 5 (by norm_num; omega)

theorem digits_length_pos (n : Nat) (h : 0 < n) : 1 ≤ (Nat.digits 10 n).length := by
  have : Nat.digits 10 n ≠ [] := Nat.digits_ne_nil_iff_ne_zero.mpr (by omega)
  exact List.length_pos.mpr this

theorem pack_spec (fuel : Nat) : ∀ (num : Nat) (buf : Buffer) (i : Nat),
    num ≤ fuel → i + (Nat.digits 10 num).length ≤ buf.length → buf.length ≤ 255 →
    ∃ out, Display_Number_pack fuel num buf i = some (out, i + (Nat.digits 10 num).length) ∧
      out.length = buf.length ∧ (∀ j < i, out.load j = buf.load j) ∧
      ∀ k < (Nat.digits 10 num).length,
        out.load (i + k) = ((Nat.digits 10 num).map (· + 48))[k]? := by
  induction fuel with
  | zero =>
    intro num buf i hf _ _
    have h0 : num = 0 := by omega
    subst h0
    exact ⟨buf, by simp [Display_Number_pack], rfl, fun _ _ => rfl, by simp⟩
  | succ fuel ih =>
    intro num buf i hf hlen hcap
    by_cases h0 : num = 0
    · subst h0
      exact ⟨buf, by simp [Display_Number_pack], rfl, fun _ _ => rfl, by simp⟩
    · have hpos : 0 < num := Nat.pos_of_ne_zero h0
      have hd : Nat.digits 10 num = num % 10 :: Nat.digits 10 (num / 10) :=
        Nat.digits_def' (by norm_num) hpos
      rw [hd] at hlen ⊢
      simp only [List.length_cons] at hlen ⊢
      have hi : i < buf.length := by omega
      have hw : wrap8 ((num % 10 : Nat) + 48) = num % 10 + 48 := by
        unfold wrap8; omega
      have hi1 : wrap8 ((i : Int) + 1) = i + 1 := by
        unfold wrap8; omega
      obtain ⟨out, hout, hl, hframe, hdig⟩ :=
        ih (num / 10) (buf.set i (some (num % 10 + 48))) (i + 1) (by omega)
          (by simp only [List.length_set]; omega) (by simp only [List.length_set]; omega)
      refine ⟨out, ?_, ?_, ?_, ?_⟩
      · simp only [Display_Number_pack, hpos, if_true, Buffer.store, hi, hw, hi1]
        rw [hout]
        congr 2
        omega
      · simpa using hl
      · intro j hj
        rw [hframe j (by omega), load_set buf i j _ hi]
        simp only [ite_eq_right_iff]
        intro hij
        omega
      · intro k hk
        cases k with
        | zero =>
          rw [Nat.add_zero, hframe i (by omega), load_set buf i i _ hi]
          simp
        | succ k =>
          have := hdig k (by omega)
          rw [show i + (k + 1) = i + 1 + k by omega, this]
          simp

theorem emit_spec (rs : List Nat) : ∀ (fuel : Nat) (buf : Buffer) (p : PortD),
    rs.length ≤ fuel → rs.length ≤ 256 →
    (∀ k < rs.length, buf.load k = rs.reverse[k]?) →
    Display_Number_emit fuel buf rs.length p = some (issue (chars rs) p) := by
  induction rs with
  | nil =>
    intro fuel buf p _ _ _
    cases fuel <;> simp [Display_Number_emit, chars, issue]
  | cons c rs ih =>
    intro fuel buf p hf hcap hload
    cases fuel with
    | zero => simp at hf
    | succ fuel =>
      simp only [List.length_cons] at hf hcap hload
      have hdec : wrap8 (((rs.length + 1 : Nat) : Int) - 1) = rs.length := by
        unfold wrap8; omega
      have hc : buf.load rs.length = some c := by
        rw [hload rs.length (by omega)]
        simp [List.getElem?_append_right]
      have hrest : ∀ k < rs.length, buf.load k = rs.reverse[k]? := by
        intro k hk
        rw [hload k (by omega)]
        simp [List.getElem?_append_left, hk]
      simp only [List.length_cons, Display_Number_emit, Nat.succ_pos, if_true, hdec, hc]
      rw [ih fuel buf (LCD_Char c p) (by omega) (by omega) hrest]
      simp [chars, issue]

theorem Display_Number_eq (num : Nat) (h : num < 65536) (p : PortD) :
    Display_Number num p = some (issue (chars (decimal num)) p) := by
  by_cases h0 : num = 0
  · simp [Display_Number, decimal, h0, chars, issue]
  · have h5 := digits_length_le_five num h
    obtain ⟨out, hout, _, _, hdig⟩ :=
      pack_spec num num Buffer.fresh 0 (le_refl _) (by simp [Buffer.fresh]; omega)
        (by simp [Buffer.fresh])
    simp only [Nat.zero_add] at hout hdig
    have hemit := emit_spec ((Nat.digits 10 num).map (· + 48)).reverse
      (Nat.digits 10 num).length out p (by simp) (by simp; omega)
      (by simpa using hdig)
    simp only [List.length_reverse, List.length_map] at hemit
    simp only [Display_Number, h0, if_false, hout, hemit, decimal, List.map_reverse]

theorem emitted_issue (ts : List Transfer) (p : PortD) :
    emitted p (issue ts p) = issueWrites ts := by
  simp [emitted, issue_writes]

theorem decimal_code_lt (n : Nat) : ∀ c ∈ decimal n, c < 256 := by
  intro c hc
  unfold decimal at hc
  split at hc
  · simp at hc; omega
  · simp only [List.mem_map, List.mem_reverse] at hc
    obtain ⟨d, hd, rfl⟩ := hc
    have := Nat.digits_lt_base (by norm_num : 1 < 10) hd
    omega

theorem light_percentage_lt (adc_value : Nat) : light_percentage adc_value < 65536 := by
  unfold light_percentage wrap16
  omega

theorem cstr_blank : cstr "                " = List.replicate 16 32 := by decide

theorem LCD_String_lit (str : List Nat) (h : ∀ c ∈ str, c ≠ 0) (p : PortD) :
    LCD_String str p = issue (chars str) p := by
  rw [LCD_String_eq]
  congr 2
  exact List.takeWhile_eq_self_iff.mpr (by simpa using h)

theorem LCD_Cmd_issue (c : Nat) (p : PortD) : LCD_Cmd c p = issue [Transfer.command c] p := rfl

theorem Clear_Line_one (p : PortD) :
    Clear_Line 1 p = issue (Transfer.command 0x80 :: chars (List.replicate 16 32)) p := by
  have h : LCD_Goto 1 1 p = LCD_Cmd 0x80 p := rfl
  simp only [Clear_Line, h, cstr_blank]
  rw [LCD_String_lit _ (by decide)]
  rfl

theorem Clear_Line_two (p : PortD) :
    Clear_Line 2 p = issue (Transfer.command 0xC0 :: chars (List.replicate 16 32)) p := by
  have h : LCD_Goto 2 1 p = LCD_Cmd 0xC0 p := rfl
  simp only [Clear_Line, h, cstr_blank]
  rw [LCD_String_lit _ (by decide)]
  rfl

theorem chars_append (a b : List Nat) : chars (a ++ b) = chars a ++ chars b := by
  simp [chars]

theorem main_line1_eq (lp : Nat) (h : lp < 65536) (st : LoopState) :
    main_line1 lp st = some (after_line1 lp st) := by
  unfold main_line1 after_line1
  split
  · have hg : ∀ q, LCD_Goto 1 1 q = issue [Transfer.command 0x80] q := fun _ => rfl
    simp only [Clear_Line_one, hg, Display_Number_eq lp h,
      LCD_String_lit (cstr "L:") (by decide), LCD_String_lit (cstr "% M:") (by decide),
      LCD_String_lit (cstr "YES") (by decide), LCD_String_lit (cstr "NO ") (by decide)]
    by_cases hm : st.motion_detected = 0
    · simp [hm, ← issue_append, rewrite_traffic, line1_text, chars_append]
    · simp [hm, ← issue_append, rewrite_traffic, line1_text, chars_append]
  · rfl

theorem main_line2_eq (st : LoopState) : main_line2 st = some (after_line2 st) := by
  unfold main_line2 after_line2
  split
  · have hg : ∀ q, LCD_Goto 2 1 q = issue [Transfer.command 0xC0] q := fun _ => rfl
    simp only [Clear_Line_two, hg,
      LCD_String_lit (cstr "LT:") (by decide), LCD_String_lit (cstr " MT:") (by decide),
      LCD_String_lit (cstr "ON ") (by decide), LCD_String_lit (cstr "OFF") (by decide),
      LCD_String_lit (cstr "ON") (by decide)]
    cases st.LIGHT_LED <;> cases st.MOTION_LED <;>
      simp [← issue_append, rewrite_traffic, line2_text, chars_append]
  · rfl

theorem main_loop_eq (adc_value : Nat) (MOTION_SENSOR : Bool) (st : LoopState) :
    main_loop adc_value MOTION_SENSOR st =
      some (after_line2 (after_line1 (light_percentage adc_value)
        (main_sense adc_value MOTION_SENSOR st))) := by
  simp only [main_loop, main_line1_eq _ (light_percentage_lt adc_value), main_line2_eq]

theorem main_sense_eq (adc_value : Nat) (MOTION_SENSOR : Bool) (st : LoopState) :
    main_sense adc_value MOTION_SENSOR st =
      { st with LIGHT_LED := decide (light_percentage adc_value < 50)
                MOTION_LED := MOTION_SENSOR
                motion_detected := MOTION_SENSOR.toNat } := by
  unfold main_sense
  by_cases hl : light_percentage adc_value < 50 <;> cases MOTION_SENSOR <;>
    simp [hl, bitOf_zero, bitOf_one]

theorem issueWrites_ne_nil (t : Transfer) (ts : List Transfer) : issueWrites (t :: ts) ≠ [] := by
  simp [issueWrites, sendWrites]

theorem line1_text_code_lt (lp : Nat) (m : Bool) : ∀ c ∈ line1_text lp m, c < 256 := by
  intro c hc
  simp only [line1_text, List.mem_append] at hc
  rcases hc with ((hc | hc) | hc) | hc
  · revert c; decide
  · exact decimal_code_lt lp c hc
  · revert c; decide
  · cases m <;> (revert c; decide)

theorem line2_text_code_lt (l m : Bool) : ∀ c ∈ line2_text l m, c < 256 := by
  cases l <;> cases m <;> decide

theorem rewrite_traffic_code_lt (address : Nat) (text : List Nat) (ha : address < 256)
    (ht : ∀ c ∈ text, c < 256) : ∀ t ∈ rewrite_traffic address text, t.code < 256 := by
  intro t ht'
  simp only [rewrite_traffic, chars, List.mem_cons, List.mem_append, List.mem_map,
    List.mem_replicate] at ht'
  rcases ht' with (rfl | ⟨c, ⟨_, rfl⟩, rfl⟩) | rfl | ⟨c, hc, rfl⟩
  · exact ha
  · simp [Transfer.code]
  · exact ha
  · exact ht c hc

theorem emitted_self (p : PortD) : emitted p p = [] := by
  simp [emitted]

theorem emitted_rewrite_ne_nil (address : Nat) (text : List Nat) (p : PortD) :
    emitted p (issue (rewrite_traffic address text) p) ≠ [] := by
  rw [emitted_issue]
  exact issueWrites_ne_nil _ _

theorem decimal_length (n : Nat) (h : n ≤ 100) :
    1 ≤ (decimal n).length ∧ (decimal n).length ≤ 3 := by
  unfold decimal
  split
  · simp
  · simp only [List.length_map, List.length_reverse]
    exact ⟨digits_length_pos n (by omega), digits_length_le n 3 (by norm_num; omega)⟩

theorem iteration_fields (adc_value : Nat) (MOTION_SENSOR : Bool) (s : LoopState) :
    (after_line2 (after_line1 (light_percentage adc_value)
      (main_sense adc_value MOTION_SENSOR s))).LIGHT_LED
        = decide (light_percentage adc_value < 50) ∧
    (after_line2 (after_line1 (light_percentage adc_value)
      (main_sense adc_value MOTION_SENSOR s))).MOTION_LED = MOTION_SENSOR ∧
    (after_line2 (after_line1 (light_percentage adc_value)
      (main_sense adc_value MOTION_SENSOR s))).motion_detected = MOTION_SENSOR.toNat ∧
    (after_line2 (after_line1 (light_percentage adc_value)
      (main_sense adc_value MOTION_SENSOR s))).previous_motion = MOTION_SENSOR.toNat ∧
    (after_line2 (after_line1 (light_percentage adc_value)
      (main_sense adc_value MOTION_SENSOR s))).previous_light = light_percentage adc_value ∧
    (after_line2 (after_line1 (light_percentage adc_value)
      (main_sense adc_value MOTION_SENSOR s))).previous_light_led
        = (decide (light_percentage adc_value < 50)).toNat ∧
    (after_line2 (after_line1 (light_percentage adc_value)
      (main_sense adc_value MOTION_SENSOR s))).previous_motion_led = MOTION_SENSOR.toNat := by
  simp only [after_line2, after_line1, main_sense_eq]
  by_cases h1 : light_percentage adc_value ≠ s.previous_light ∨
      MOTION_SENSOR.toNat ≠ s.previous_motion <;>
    by_cases h2 : (decide (light_percentage adc_value < 50)).toNat ≠ s.previous_light_led ∨
      MOTION_SENSOR.toNat ≠ s.previous_motion_led <;>
    simp only [h1, h2, if_true, if_false, true_and, and_true, and_self] <;>
    simp only [not_or, not_not] at h1 h2 <;>
    (try simp only [← h1.1, ← h1.2]) <;>
    (try simp only [← h2.1, ← h2.2]) <;>
    simp

theorem iteration_fixed (adc_value : Nat) (MOTION_SENSOR : Bool) (s : LoopState)
    (h1 : s.LIGHT_LED = decide (light_percentage adc_value < 50))
    (h2 : s.MOTION_LED = MOTION_SENSOR)
    (h3 : s.motion_detected = MOTION_SENSOR.toNat)
    (h4 : s.previous_motion = MOTION_SENSOR.toNat)
    (h5 : s.previous_light = light_percentage adc_value)
    (h6 : s.previous_light_led = (decide (light_percentage adc_value < 50)).toNat)
    (h7 : s.previous_motion_led = MOTION_SENSOR.toNat) :
    after_line2 (after_line1 (light_percentage adc_value)
      (main_sense adc_value MOTION_SENSOR s)) = s := by
  obtain ⟨d, l, m, md, pm, pl, pll, pml⟩ := s
  simp only at h1 h2 h3 h4 h5 h6 h7
  subst h1 h2 h3 h4 h5 h6 h7
  simp [after_line2, after_line1, main_sense_eq]

theorem after_line1_fields (adc_value : Nat) (MOTION_SENSOR : Bool) (s : LoopState) :
    (after_line1 (light_percentage adc_value) (main_sense adc_value MOTION_SENSOR s)).LIGHT_LED
      = decide (light_percentage adc_value < 50) ∧
    (after_line1 (light_percentage adc_value) (main_sense adc_value MOTION_SENSOR s)).MOTION_LED
      = MOTION_SENSOR ∧
    (after_line1 (light_percentage adc_value)
      (main_sense adc_value MOTION_SENSOR s)).previous_light_led = s.previous_light_led ∧
    (after_line1 (light_percentage adc_value)
      (main_sense adc_value MOTION_SENSOR s)).previous_motion_led = s.previous_motion_led := by
  simp only [after_line1, main_sense_eq]
  split <;> exact ⟨rfl, rfl, rfl, rfl⟩

theorem latches_chars (cs : List Nat) (p : Lines) :
    (latches p (issueWrites (chars cs))).length = 2 * cs.length ∧
    ∀ l ∈ latches p (issueWrites (chars cs)), l.rs = true := by
  induction cs generalizing p with
  | nil => simp [chars, issueWrites, latches]
  | cons c cs ih =>
    have hc : issueWrites (chars (c :: cs)) = sendWrites true c ++ issueWrites (chars cs) := rfl
    rw [hc, latches_sendWrites]
    obtain ⟨h1, h2⟩ := ih (sendLines true c)
    refine ⟨by simp only [List.length_cons, h1]; omega, ?_⟩
    intro l hl
    simp only [List.mem_cons] at hl
    rcases hl with rfl | rfl | hl
    · rfl
    · rfl
    · exact h2 l hl

theorem LCD_String_stop (text rest : List Nat) (h : ∀ c ∈ text, c ≠ 0) (p : PortD) :
    LCD_String (text ++ 0 :: rest) p = issue (chars text) p := by
  induction text generalizing p with
  | nil => simp [LCD_String, chars, issue]
  | cons c text ih =>
    have hc : c ≠ 0 := h c (List.mem_cons_self _ _)
    have ht : ∀ d ∈ text, d ≠ 0 := fun d hd => h d (List.mem_cons_of_mem _ hd)
    have step : LCD_String (c :: (text ++ 0 :: rest)) p
        = LCD_String (text ++ 0 :: rest) (LCD_Char c p) := by
      simp only [LCD_String, hc, ne_eq, not_false_eq_true, if_true]
    rw [List.cons_append, step, ih ht]
    rfl

theorem chars_code_lt (cs : List Nat) (h : ∀ c ∈ cs, c < 256) :
    ∀ t ∈ chars cs, t.code < 256 := by
  intro t ht
  simp only [chars, List.mem_map] at ht
  obtain ⟨c, hc, rfl⟩ := ht
  exact h c hc

theorem goto_string_traffic (text : List Nat) (h : ∀ c ∈ text, c ≠ 0 ∧ c < 256) (p : PortD) :
    traffic (LCD_Goto 1 1 p) (LCD_String text (LCD_Goto 1 1 p)) = some (chars text) ∧
    traffic p (LCD_String text (LCD_Goto 1 1 p))
      = some (Transfer.command 0x80 :: chars text) := by
  have hg : LCD_Goto 1 1 p = issue [Transfer.command 0x80] p := rfl
  have hs : ∀ q, LCD_String text q = issue (chars text) q :=
    fun q => LCD_String_lit text (fun c hc => (h c hc).1) q
  have hlt := chars_code_lt text (fun c hc => (h c hc).2)
  refine ⟨by rw [hs]; exact traffic_issue _ hlt _, ?_⟩
  rw [hs, hg, ← issue_append]
  apply traffic_issue
  intro t ht
  simp only [List.singleton_append, List.mem_cons] at ht
  rcases ht with rfl | ht
  · decide
  · exact hlt t ht

theorem traffic_LCD_Cmd (a : Nat) (ha : a < 256) (p : PortD) :
    traffic p (LCD_Cmd a p) = some [Transfer.command a] := by
  rw [LCD_Cmd_issue]
  apply traffic_issue
  intro t ht
  simp only [List.mem_singleton] at ht
  subst ht
  exact ha

theorem LCD_Goto_row1 (c : Nat) (h1 : 1 ≤ c) (h16 : c ≤ 16) (p : PortD) :
    LCD_Goto 1 c p = LCD_Cmd (0x80 + (c - 1)) p := by
  have ha : wrap8 (0x80 + ((c : Int) - 1)) = 0x80 + (c - 1) := by
    unfold wrap8; omega
  simp only [LCD_Goto, if_true, ha]

theorem LCD_Goto_other (row c : Nat) (hr : row ≠ 1) (h1 : 1 ≤ c) (h16 : c ≤ 16) (p : PortD) :
    LCD_Goto row c p = LCD_Cmd (0xC0 + (c - 1)) p := by
  have ha : wrap8 (0xC0 + ((c : Int) - 1)) = 0xC0 + (c - 1) := by
    unfold wrap8; omega
  simp only [LCD_Goto, hr, if_false, ha]

theorem light_percentage_eq (s : Nat) (h : s ≤ 1023) :
    light_percentage s = 100 - s * 100 / 1023 := by
  have hq : s * 100 / 1023 ≤ 100 := by omega
  have hprod : s * 100 % 2 ^ 32 = s * 100 := Nat.mod_eq_of_lt (by norm_num; omega)
  have hcast : s * 100 / 1023 % 65536 = s * 100 / 1023 := Nat.mod_eq_of_lt (by omega)
  unfold light_percentage wrap16
  rw [hprod, hcast]
  omega

theorem ADC_Read_wait_eq (polls hi lo : Nat) (r : AdcRegs) :
    ADC_Read_wait polls hi lo r =
      { r with ADCON0 := r.ADCON0 &&& 0xFB, ADRESH := hi, ADRESL := lo } := by
  induction polls with
  | zero => rfl
  | succ n ih => simpa [ADC_Read_wait] using ih

set_option maxRecDepth 1000000 in
theorem channel_select_bits :
    ∀ a < 256, ∀ ch < 8,
      (((a &&& 0xC7) ||| (ch <<< 3)) % 256 ||| 0x04) / 8 % 8 = ch ∧
      (((a &&& 0xC7) ||| (ch <<< 3)) % 256 ||| 0x04) / 4 % 2 = 1 ∧
      ((((a &&& 0xC7) ||| (ch <<< 3)) % 256 ||| 0x04) &&& 0xFB) / 8 % 8 = ch ∧
      ((((a &&& 0xC7) ||| (ch <<< 3)) % 256 ||| 0x04) &&& 0xFB) / 128 % 2 = a / 128 % 2 ∧
      ((((a &&& 0xC7) ||| (ch <<< 3)) % 256 ||| 0x04) &&& 0xFB) / 64 % 2 = a / 64 % 2 ∧
      ((((a &&& 0xC7) ||| (ch <<< 3)) % 256 ||| 0x04) &&& 0xFB) / 2 % 2 = a / 2 % 2 ∧
      ((((a &&& 0xC7) ||| (ch <<< 3)) % 256 ||| 0x04) &&& 0xFB) % 2 = a % 2 ∧
      ((((a &&& 0xC7) ||| (ch <<< 3)) % 256 ||| 0x04) &&& 0xFB) / 4 % 2 = 0 := by
  decide

theorem after_line1_emitted (lp : Nat) (s : LoopState) :
    (lp ≠ s.previous_light ∨ s.motion_detected ≠ s.previous_motion) ↔
      emitted s.portd (after_line1 lp s).portd ≠ [] := by
  by_cases hc : lp ≠ s.previous_light ∨ s.motion_detected ≠ s.previous_motion
  · simp only [after_line1, hc, if_true, true_iff]
    exact emitted_rewrite_ne_nil _ _ _
  · simp only [after_line1, hc, if_false, false_iff, not_not]
    exact emitted_self _

theorem after_line2_emitted (s : LoopState) :
    (s.LIGHT_LED.toNat ≠ s.previous_light_led ∨ s.MOTION_LED.toNat ≠ s.previous_motion_led) ↔
      emitted s.portd (after_line2 s).portd ≠ [] := by
  by_cases hc : s.LIGHT_LED.toNat ≠ s.previous_light_led ∨
      s.MOTION_LED.toNat ≠ s.previous_motion_led
  · simp only [after_line2, hc, if_true, true_iff]
    exact emitted_rewrite_ne_nil _ _ _
  · simp only [after_line2, hc, if_false, false_iff, not_not]
    exact emitted_self _

/-! ## Lemmas on the buffer accesses -/

theorem pack_log_erase (fuel : Nat) : ∀ (num : Nat) (buf : Buffer) (i : Nat) (log : List Access),
    (Display_Number_pack_log fuel num buf i log).map (fun r => (r.1, r.2.1))
      = Display_Number_pack fuel num buf i := by
  induction fuel with
  | zero =>
    intro num buf i log
    by_cases h : num > 0 <;> simp [Display_Number_pack_log, Display_Number_pack, h]
  | succ fuel ih =>
    intro num buf i log
    by_cases h : num > 0
    · simp only [Display_Number_pack_log, Display_Number_pack, h, if_true]
      cases hs : buf.store i (wrap8 ((num % 10 : Nat) + 48)) with
      | none => rfl
      | some b => exact ih _ _ _ _
    · simp [Display_Number_pack_log, Display_Number_pack, h]

theorem pack_log_accesses (fuel : Nat) : ∀ (num : Nat) (buf : Buffer) (i : Nat)
    (log : List Access) (out : Buffer) (j : Nat) (l : List Access),
    Display_Number_pack_log fuel num buf i log = some (out, j, l) →
    i + (Nat.digits 10 num).length ≤ 255 →
    l = log ++ (List.range' i (Nat.digits 10 num).length).map Access.store := by
  induction fuel with
  | zero =>
    intro num buf i log out j l hrun _
    by_cases h : num > 0
    · simp [Display_Number_pack_log, h] at hrun
    · have h0 : num = 0 := by omega
      subst h0
      simp only [Display_Number_pack_log, gt_iff_lt, Nat.lt_irrefl, if_false, Option.some.injEq,
        Prod.mk.injEq] at hrun
      simp [hrun.2.2]
  | succ fuel ih =>
    intro num buf i log out j l hrun hlen
    by_cases h : num > 0
    · have hd : Nat.digits 10 num = num % 10 :: Nat.digits 10 (num / 10) :=
        Nat.digits_def' (by norm_num) h
      rw [hd] at hlen ⊢
      simp only [List.length_cons] at hlen ⊢
      have hi1 : wrap8 ((i : Int) + 1) = i + 1 := by
        unfold wrap8; omega
      simp only [Display_Number_pack_log, h, if_true, hi1] at hrun
      split at hrun
      · exact absurd hrun (by simp)
      · have := ih _ _ _ _ _ _ _ hrun (by omega)
        rw [this, List.range'_succ]
        simp
    · have h0 : num = 0 := by omega
      subst h0
      simp only [Display_Number_pack_log, gt_iff_lt, Nat.lt_irrefl, if_false, Option.some.injEq,
        Prod.mk.injEq] at hrun
      simp [hrun.2.2]

theorem emit_log_erase (fuel : Nat) : ∀ (buf : Buffer) (i : Nat) (p : PortD) (log : List Access),
    (Display_Number_emit_log fuel buf i p log).map Prod.fst
      = Display_Number_emit fuel buf i p := by
  induction fuel with
  | zero =>
    intro buf i p log
    by_cases h : i > 0 <;> simp [Display_Number_emit_log, Display_Number_emit, h]
  | succ fuel ih =>
    intro buf i p log
    by_cases h : i > 0
    · simp only [Display_Number_emit_log, Display_Number_emit, h, if_true]
      cases hs : buf.load (wrap8 ((i : Int) - 1)) with
      | none => rfl
      | some c => exact ih _ _ _ _
    · simp [Display_Number_emit_log, Display_Number_emit, h]

theorem emit_log_accesses (fuel : Nat) : ∀ (buf : Buffer) (i : Nat) (p : PortD)
    (log : List Access) (q : PortD) (l : List Access),
    Display_Number_emit_log fuel buf i p log = some (q, l) → i ≤ 256 →
    l = log ++ (List.range i).reverse.map Access.load := by
  induction fuel with
  | zero =>
    intro buf i p log q l hrun _
    by_cases h : i > 0
    · simp [Display_Number_emit_log, h] at hrun
    · have h0 : i = 0 := by omega
      subst h0
      simp only [Display_Number_emit_log, gt_iff_lt, Nat.lt_irrefl, if_false, Option.some.injEq,
        Prod.mk.injEq] at hrun
      simp [hrun.2]
  | succ fuel ih =>
    intro buf i p log q l hrun hi
    by_cases h : i > 0
    · obtain ⟨k, rfl⟩ : ∃ k, i = k + 1 := ⟨i - 1, by omega⟩
      have hdec : wrap8 (((k + 1 : Nat) : Int) - 1) = k := by
        unfold wrap8; omega
      simp only [Display_Number_emit_log, h, if_true, hdec] at hrun
      split at hrun
      · exact absurd hrun (by simp)
      · have := ih _ _ _ _ _ _ hrun (by omega)
        rw [this, List.range_succ]
        simp
    · have h0 : i = 0 := by omega
      subst h0
      simp only [Display_Number_emit_log, gt_iff_lt, Nat.lt_irrefl, if_false, Option.some.injEq,
        Prod.mk.injEq] at hrun
      simp [hrun.2]

theorem Display_Number_log_erase (num : Nat) (p : PortD) :
    (Display_Number_log num p).map Prod.fst = Display_Number num p := by
  unfold Display_Number_log Display_Number
  by_cases h0 : num = 0
  · simp [h0]
  · simp only [h0, if_false]
    have he := pack_log_erase num num Buffer.fresh 0 []
    cases hp : Display_Number_pack_log num num Buffer.fresh 0 [] with
    | none =>
      rw [hp] at he
      simp only [Option.map_none'] at he
      rw [← he]
      rfl
    | some r =>
      obtain ⟨buf, i, log⟩ := r
      rw [hp] at he
      simp only [Option.map_some'] at he
      rw [← he]
      exact emit_log_erase _ _ _ _ _

theorem Display_Number_log_spec (num : Nat) (h : num < 65536) (h0 : num ≠ 0) (p : PortD) :
    Display_Number_log num p = some (issue (chars (decimal num)) p,
      (List.range (Nat.digits 10 num).length).map Access.store ++
        (List.range (Nat.digits 10 num).length).reverse.map Access.load) := by
  have h5 := digits_length_le_five num h
  have herase := Display_Number_log_erase num p
  rw [Display_Number_eq num h p] at herase
  obtain ⟨out, hout, -⟩ :=
    pack_spec num num Buffer.fresh 0 (le_refl _) (by simp [Buffer.fresh]; omega)
      (by simp [Buffer.fresh])
  simp only [Nat.zero_add] at hout
  have hpe := pack_log_erase num num Buffer.fresh 0 []
  rw [hout] at hpe
  cases hp : Display_Number_pack_log num num Buffer.fresh 0 [] with
  | none => rw [hp] at hpe; simp at hpe
  | some r =>
    obtain ⟨buf, i, l1⟩ := r
    rw [hp] at hpe
    simp only [Option.map_some', Option.some.injEq, Prod.mk.injEq] at hpe
    obtain ⟨rfl, rfl⟩ := hpe
    have hl1 := pack_log_accesses num num Buffer.fresh 0 [] _ _ _ hp (by omega)
    simp only [List.nil_append, ← List.range_eq_range'] at hl1
    have hunf : Display_Number_log num p
        = Display_Number_emit_log (Nat.digits 10 num).length buf (Nat.digits 10 num).length p l1 := by
      simp only [Display_Number_log, h0, if_false, hp]
    rw [hunf] at herase ⊢
    cases he : Display_Number_emit_log (Nat.digits 10 num).length buf
        (Nat.digits 10 num).length p l1 with
    | none => rw [he] at herase; simp at herase
    | some r =>
      obtain ⟨q, l⟩ := r
      rw [he] at herase
      simp only [Option.map_some', Option.some.injEq] at herase
      have hl := emit_log_accesses _ _ _ _ _ _ _ he (by omega)
      rw [hl, hl1, herase]

/-! ## Lemmas on runs of the polling loop -/

theorem main_run_append (xs ys : List (Nat × Bool)) (st : LoopState) :
    main_run (xs ++ ys) st = (main_run xs st).bind (main_run ys) := by
  induction xs generalizing st with
  | nil => rfl
  | cons x xs ih =>
    obtain ⟨a, m⟩ := x
    simp only [List.cons_append, main_run]
    cases main_loop a m st with
    | none => rfl
    | some s => exact ih s

theorem line1_text_length (lp : Nat) (m : Bool) (h : lp ≤ 100) :
    (line1_text lp m).length ≤ 16 := by
  have hd := decimal_length lp h
  have h1 : (cstr "L:").length = 2 := by decide
  have h2 : (cstr "% M:").length = 4 := by decide
  have h3 : (cstr (if m then "YES" else "NO ")).length = 3 := by
    cases m <;> decide
  simp only [line1_text, List.length_append, h1, h2, h3]
  omega

theorem cells_chars_mem (cs : List Nat) : ∀ (c : Nat) (rest : List Transfer) (x : Option Nat),
    x ∈ cells_written (some c) (chars cs ++ rest) →
    (∃ k, k < cs.length ∧ x = some (c + k)) ∨
      x ∈ cells_written (some (c + cs.length)) rest := by
  induction cs with
  | nil =>
    intro c rest x hx
    right
    simpa [chars] using hx
  | cons d cs ih =>
    intro c rest x hx
    have hunf : cells_written (some c) (chars (d :: cs) ++ rest)
        = some c :: cells_written (some (c + 1)) (chars cs ++ rest) := rfl
    rw [hunf, List.mem_cons] at hx
    rcases hx with rfl | hx
    · exact Or.inl ⟨0, by simp, rfl⟩
    · rcases ih (c + 1) rest x hx with ⟨k, hk, rfl⟩ | hx
      · exact Or.inl ⟨k + 1, by simp only [List.length_cons]; omega, by congr 1; omega⟩
      · right
        rw [List.length_cons, show c + (cs.length + 1) = c + 1 + cs.length by omega]
        exact hx

theorem cells_command (a : Nat) (ha : 0x80 ≤ a) (cursor : Option Nat) (ts : List Transfer) :
    cells_written cursor (Transfer.command a :: ts) = cells_written (some a) ts := by
  cases cursor <;> simp only [cells_written, ha, if_true]

theorem cells_rewrite_mem (a : Nat) (text : List Nat) (ha : 0x80 ≤ a) (ht : text.length ≤ 16)
    (cursor : Option Nat) (rest : List Transfer) (x : Option Nat)
    (hx : x ∈ cells_written cursor (rewrite_traffic a text ++ rest)) :
    (∃ k, k < 16 ∧ x = some (a + k)) ∨
      x ∈ cells_written (some (a + text.length)) rest := by
  have hshape : rewrite_traffic a text ++ rest
      = Transfer.command a ::
          (chars (List.replicate 16 32) ++ (Transfer.command a :: (chars text ++ rest))) := by
    simp only [rewrite_traffic, List.cons_append, List.append_assoc]
  rw [hshape, cells_command a ha] at hx
  rcases cells_chars_mem _ _ _ _ hx with ⟨k, hk, rfl⟩ | hx
  · exact Or.inl ⟨k, by simpa using hk, rfl⟩
  · rw [cells_command a ha] at hx
    rcases cells_chars_mem _ _ _ _ hx with ⟨k, hk, rfl⟩ | hx
    · exact Or.inl ⟨k, by omega, rfl⟩
    · exact Or.inr hx

theorem cells_line1_rewrites (lps : List Nat) (h : ∀ lp ∈ lps, lp ≤ 100) :
    ∀ (cursor : Option Nat) (x : Option Nat), x ∈ cells_written cursor (line1_rewrites lps) →
      ∃ k, k < 16 ∧ x = some (0x80 + k) := by
  induction lps with
  | nil =>
    intro cursor x hx
    simp [line1_rewrites, cells_written] at hx
  | cons lp lps ih =>
    intro cursor x hx
    have hlp : lp ≤ 100 := h lp (List.mem_cons_self _ _)
    rcases cells_rewrite_mem 0x80 _ (by decide) (line1_text_length lp false hlp) cursor
        (line1_rewrites lps) x hx with hk | hx
    · exact hk
    · exact ih (fun y hy => h y (List.mem_cons_of_mem _ hy)) _ x hx

theorem cells_line2_rewrites (n : Nat) :
    ∀ (cursor : Option Nat) (x : Option Nat), x ∈ cells_written cursor (line2_rewrites n) →
      ∃ k, k < 16 ∧ x = some (0xC0 + k) := by
  induction n with
  | zero =>
    intro cursor x hx
    simp [line2_rewrites, cells_written] at hx
  | succ n ih =>
    intro cursor x hx
    rcases cells_rewrite_mem 0xC0 _ (by decide) (by decide) cursor
        (line2_rewrites n) x hx with hk | hx
    · exact hk
    · exact ih _ x hx

theorem line1_rewrites_append (a b : List Nat) :
    line1_rewrites (a ++ b) = line1_rewrites a ++ line1_rewrites b := by
  induction a with
  | nil => rfl
  | cons x a ih => simp [line1_rewrites, ih]

theorem line2_rewrites_add (a b : Nat) :
    line2_rewrites (a + b) = line2_rewrites a ++ line2_rewrites b := by
  induction a with
  | zero => simp [line2_rewrites]
  | succ a ih =>
    rw [show a + 1 + b = (a + b) + 1 by omega]
    simp [line2_rewrites, ih]

theorem line1_rewrites_mem (lps : List Nat) :
    ∀ t ∈ line1_rewrites lps, t.code < 256 ∧ t ≠ Transfer.command 0xC0 := by
  induction lps with
  | nil => intro t ht; simp [line1_rewrites] at ht
  | cons lp lps ih =>
    intro t ht
    simp only [line1_rewrites, List.mem_append] at ht
    rcases ht with ht | ht
    · refine ⟨rewrite_traffic_code_lt _ _ (by decide) (line1_text_code_lt _ _) t ht, ?_⟩
      simp only [rewrite_traffic, chars, List.mem_cons, List.mem_append, List.mem_map] at ht
      rcases ht with (rfl | ⟨c, _, rfl⟩) | rfl | ⟨c, _, rfl⟩ <;> simp
    · exact ih t ht

theorem line2_rewrites_mem (n : Nat) :
    ∀ t ∈ line2_rewrites n, t.code < 256 ∧ t ≠ Transfer.command 0x80 := by
  induction n with
  | zero => intro t ht; simp [line2_rewrites] at ht
  | succ n ih =>
    intro t ht
    simp only [line2_rewrites, List.mem_append] at ht
    rcases ht with ht | ht
    · refine ⟨rewrite_traffic_code_lt _ _ (by decide) (line2_text_code_lt _ _) t ht, ?_⟩
      simp only [rewrite_traffic, chars, List.mem_cons, List.mem_append, List.mem_map] at ht
      rcases ht with (rfl | ⟨c, _, rfl⟩) | rfl | ⟨c, _, rfl⟩ <;> simp
    · exact ih t ht

theorem step_led_off (adc : Nat) (h : adc ≤ 521) (st : LoopState)
    (h1 : st.previous_light_led = 0) (h2 : st.previous_motion_led = 0) :
    ∃ lps, (∀ lp ∈ lps, lp ≤ 100) ∧
      after_line2 (after_line1 (light_percentage adc) (main_sense adc false st))
        = after_line1 (light_percentage adc) (main_sense adc false st) ∧
      (after_line1 (light_percentage adc) (main_sense adc false st)).portd
        = issue (line1_rewrites lps) st.portd ∧
      (after_line1 (light_percentage adc) (main_sense adc false st)).previous_light_led = 0 ∧
      (after_line1 (light_percentage adc) (main_sense adc false st)).previous_motion_led = 0 := by
  obtain ⟨f1, f2, f3, f4⟩ := after_line1_fields adc false st
  have hlp := light_percentage_eq adc (by omega)
  have hge : ¬ light_percentage adc < 50 := by rw [hlp]; omega
  have hle : light_percentage adc ≤ 100 := by rw [hlp]; omega
  have hfix : after_line2 (after_line1 (light_percentage adc) (main_sense adc false st))
      = after_line1 (light_percentage adc) (main_sense adc false st) := by
    rw [after_line2, if_neg]
    rw [f1, f2, f3, f4, h1, h2]
    simp [hge]
  by_cases hc : light_percentage adc ≠ st.previous_light ∨ false.toNat ≠ st.previous_motion
  · refine ⟨[light_percentage adc], by simpa using hle, hfix, ?_, by rw [f3, h1], by rw [f4, h2]⟩
    simp only [after_line1, main_sense_eq, hc, if_true]
    simp [line1_rewrites]
  · refine ⟨[], by simp, hfix, ?_, by rw [f3, h1], by rw [f4, h2]⟩
    simp only [after_line1, main_sense_eq, hc, if_false]
    rfl

theorem step_dark (st : LoopState) (h1 : st.previous_light = 0) (h2 : st.previous_motion = 0) :
    after_line1 (light_percentage 1023) (main_sense 1023 false st) = main_sense 1023 false st ∧
    ∃ n, (after_line2 (main_sense 1023 false st)).portd = issue (line2_rewrites n) st.portd ∧
      (after_line2 (main_sense 1023 false st)).previous_light = 0 ∧
      (after_line2 (main_sense 1023 false st)).previous_motion = 0 := by
  have hlp : light_percentage 1023 = 0 := by decide
  refine ⟨?_, ?_⟩
  · rw [hlp, after_line1, if_neg]
    simp only [main_sense_eq, h1, h2]
    decide
  · by_cases hc : (decide (light_percentage 1023 < 50)).toNat ≠ st.previous_light_led ∨
        false.toNat ≠ st.previous_motion_led
    · refine ⟨1, ?_, ?_, ?_⟩ <;> simp only [after_line2, main_sense_eq, hc, if_true, h1, h2]
      simp [line2_rewrites, hlp]
    · refine ⟨0, ?_, ?_, ?_⟩ <;> simp only [after_line2, main_sense_eq, hc, if_false, h1, h2]
      rfl

theorem run_led_off (inputs : List (Nat × Bool)) : ∀ st : LoopState,
    (∀ x ∈ inputs, x.1 ≤ 521 ∧ x.2 = false) →
    st.previous_light_led = 0 → st.previous_motion_led = 0 →
    ∃ st' lps, main_run inputs st = some st' ∧ (∀ lp ∈ lps, lp ≤ 100) ∧
      st'.portd = issue (line1_rewrites lps) st.portd ∧
      st'.previous_light_led = 0 ∧ st'.previous_motion_led = 0 := by
  induction inputs with
  | nil =>
    intro st _ h1 h2
    exact ⟨st, [], rfl, by simp, rfl, h1, h2⟩
  | cons x inputs ih =>
    intro st hin h1 h2
    obtain ⟨a, m⟩ := x
    obtain ⟨ha, hm⟩ := hin (a, m) (List.mem_cons_self _ _)
    simp only at ha hm
    subst hm
    obtain ⟨lps1, hle1, hfix, hp1, g1, g2⟩ := step_led_off a ha st h1 h2
    obtain ⟨st', lps2, hrun, hle2, hp2, k1, k2⟩ :=
      ih _ (fun y hy => hin y (List.mem_cons_of_mem _ hy)) g1 g2
    refine ⟨st', lps1 ++ lps2, ?_, ?_, ?_, k1, k2⟩
    · simp only [main_run, main_loop_eq, hfix]
      exact hrun
    · intro lp hlp
      rcases List.mem_append.mp hlp with hlp | hlp
      · exact hle1 lp hlp
      · exact hle2 lp hlp
    · rw [hp2, hp1, line1_rewrites_append, issue_append]

theorem run_dark (inputs : List (Nat × Bool)) : ∀ st : LoopState,
    (∀ x ∈ inputs, x.1 = 1023 ∧ x.2 = false) →
    st.previous_light = 0 → st.previous_motion = 0 →
    ∃ st' n, main_run inputs st = some st' ∧
      st'.portd = issue (line2_rewrites n) st.portd ∧
      st'.previous_light = 0 ∧ st'.previous_motion = 0 := by
  induction inputs with
  | nil =>
    intro st _ h1 h2
    exact ⟨st, 0, rfl, rfl, h1, h2⟩
  | cons x inputs ih =>
    intro st hin h1 h2
    obtain ⟨a, m⟩ := x
    obtain ⟨ha, hm⟩ := hin (a, m) (List.mem_cons_self _ _)
    simp only at ha hm
    subst ha hm
    obtain ⟨hsame, n1, hp1, g1, g2⟩ := step_dark st h1 h2
    obtain ⟨st', n2, hrun, hp2, k1, k2⟩ :=
      ih _ (fun y hy => hin y (List.mem_cons_of_mem _ hy)) g1 g2
    refine ⟨st', n1 + n2, ?_, ?_, k1, k2⟩
    · simp only [main_run, main_loop_eq, hsame]
      exact hrun
    · rw [hp2, hp1, line2_rewrites_add, issue_append]

theorem after_line1_traffic (adc_value : Nat) (MOTION_SENSOR : Bool) (st : LoopState)
    (hc : light_percentage adc_value ≠ st.previous_light ∨
      MOTION_SENSOR.toNat ≠ st.previous_motion) :
    traffic st.portd
      (after_line1 (light_percentage adc_value) (main_sense adc_value MOTION_SENSOR st)).portd
      = some (rewrite_traffic 0x80 (line1_text (light_percentage adc_value) MOTION_SENSOR)) := by
  have hs : (after_line1 (light_percentage adc_value)
      (main_sense adc_value MOTION_SENSOR st)).portd =
      issue (rewrite_traffic 0x80 (line1_text (light_percentage adc_value) MOTION_SENSOR))
        st.portd := by
    simp only [after_line1, main_sense_eq, hc, if_true]
    cases MOTION_SENSOR <;> simp
  rw [hs]
  exact traffic_issue _ (rewrite_traffic_code_lt _ _ (by decide) (line1_text_code_lt _ _)) _

theorem after_line2_traffic (s : LoopState)
    (hc : s.LIGHT_LED.toNat ≠ s.previous_light_led ∨
      s.MOTION_LED.toNat ≠ s.previous_motion_led) :
    traffic s.portd (after_line2 s).portd
      = some (rewrite_traffic 0xC0 (line2_text s.LIGHT_LED s.MOTION_LED)) := by
  rw [after_line2, if_pos hc]
  exact traffic_issue _ (rewrite_traffic_code_lt _ _ (by decide) (line2_text_code_lt _ _)) _

theorem after_line2_quiet (s : LoopState)
    (hc : ¬ (s.LIGHT_LED.toNat ≠ s.previous_light_led ∨
      s.MOTION_LED.toNat ≠ s.previous_motion_led)) :
    after_line2 s = s := by
  rw [after_line2, if_neg hc]

theorem rewrite_traffic_ne_nil (address : Nat) (text : List Nat) :
    some (rewrite_traffic address text) ≠ some [] := by
  simp [rewrite_traffic]

/-! ## Claims -/

/-- C1: for every raw sample `s` in `[0, 1023]` the 32-bit product `s * 100`
does not wrap, the quotient fits the 16-bit cast and is at most 100 so that the
subtraction does not wrap, and the percentage computed on line 222 is the
mathematical value `100 - floor(s * 100 / 1023)`, which lies in `[0, 100]`. -/
theorem light_percentage_exact (s : Nat) (h : s ≤ 1023) :
    s * 100 < 2 ^ 32 ∧ s * 100 / 1023 < 65536 ∧ s * 100 / 1023 ≤ 100 ∧
    light_percentage s = 100 - s * 100 / 1023 ∧
    ((light_percentage s : Nat) : Int) = 100 - ((s * 100 / 1023 : Nat) : Int) ∧
    light_percentage s ≤ 100 := by
  have hq : s * 100 / 1023 ≤ 100 := by omega
  have hprod : s * 100 % 2 ^ 32 = s * 100 := Nat.mod_eq_of_lt (by norm_num; omega)
  have hcast : s * 100 / 1023 % 65536 = s * 100 / 1023 := Nat.mod_eq_of_lt (by omega)
  have hval : light_percentage s = 100 - s * 100 / 1023 := by
    unfold light_percentage wrap16
    rw [hprod, hcast]
    omega
  refine ⟨by norm_num; omega, by omega, hq, hval, ?_, ?_⟩
  · rw [hval]; omega
  · rw [hval]; omega

/-- Instance of the percentage formula at sample 700. -/
theorem light_percentage_exact_witness :
    (700 : Nat) ≤ 1023 ∧
    ((700 : Nat) * 100 < 2 ^ 32 ∧ 700 * 100 / 1023 < 65536 ∧ 700 * 100 / 1023 ≤ 100 ∧
    light_percentage 700 = 100 - 700 * 100 / 1023 ∧
    ((light_percentage 700 : Nat) : Int) = 100 - ((700 * 100 / 1023 : Nat) : Int) ∧
    light_percentage 700 ≤ 100) :=
  ⟨by decide, light_percentage_exact 700 (by decide)⟩

/-- C2: after one polling iteration the light LED is on exactly when the
percentage computed in that iteration is below 50 (a percentage of exactly 50,
reached for instance at sample 512, leaves it off), the motion LED is on exactly
when the motion input is non-zero, and both values are the same from every
starting state, whatever the LED outputs were before. -/
theorem led_outputs (adc_value : Nat) (MOTION_SENSOR : Bool) (st : LoopState) :
    ∃ st', main_loop adc_value MOTION_SENSOR st = some st' ∧
      (st'.LIGHT_LED = true ↔ light_percentage adc_value < 50) ∧
      (light_percentage adc_value = 50 → st'.LIGHT_LED = false) ∧
      light_percentage 512 = 50 ∧
      (st'.MOTION_LED = true ↔ MOTION_SENSOR.toNat ≠ 0) ∧
      ∀ other : LoopState, ∃ st2, main_loop adc_value MOTION_SENSOR other = some st2 ∧
        st2.LIGHT_LED = st'.LIGHT_LED ∧ st2.MOTION_LED = st'.MOTION_LED := by
  have key : ∀ s : LoopState, ∃ s', main_loop adc_value MOTION_SENSOR s = some s' ∧
      s'.LIGHT_LED = decide (light_percentage adc_value < 50) ∧
      s'.MOTION_LED = MOTION_SENSOR := by
    intro s
    refine ⟨_, main_loop_eq adc_value MOTION_SENSOR s, ?_, ?_⟩ <;>
      simp only [after_line2, after_line1, main_sense_eq] <;> split <;> split <;> rfl
  obtain ⟨st', h1, h2, h3⟩ := key st
  refine ⟨st', h1, by simp [h2], ?_, by decide, ?_, ?_⟩
  · intro h50
    simp [h2, h50]
  · rw [h3]
    cases MOTION_SENSOR <;> simp
  · intro other
    obtain ⟨st2, g1, g2, g3⟩ := key other
    exact ⟨st2, g1, by rw [g2, h2], by rw [g3, h3]⟩

/-- C3: for every unsigned 16-bit `n`, `Display_Number(n)` returns, having done
exactly one `LCD_Char` per character of the decimal numeral of `n`, most
significant digit first: the display receives these characters and nothing else.
For `n = 0` this is the single character `0`; for `n > 0` it is the list of digit
characters of a digit list without leading zero, of length `log10 n + 1` (between
1 and 5), that evaluates back to `n`.  In particular 0, 42 and 100 are shown as
"0", "42" and "100". -/
theorem Display_Number_decimal (n : Nat) (h : n < 65536) (p : PortD) :
    ∃ q, Display_Number n p = some q ∧
      q = issue (chars (decimal n)) p ∧
      traffic p q = some (chars (decimal n)) ∧
      (n = 0 → decimal n = [48]) ∧
      (0 < n → ∃ ds : List Nat, decimal n = ds.map (· + 48) ∧
        (∀ d ∈ ds, d < 10) ∧ ds.head? ≠ some 0 ∧
        ds.foldl (fun acc d => 10 * acc + d) 0 = n ∧
        ds.length = Nat.log 10 n + 1 ∧ 1 ≤ ds.length ∧ ds.length ≤ 5) ∧
      decimal 0 = cstr "0" ∧ decimal 42 = cstr "42" ∧ decimal 100 = cstr "100" := by
  refine ⟨_, Display_Number_eq n h p, rfl, ?_, ?_, ?_, ?_, ?_, ?_⟩
  · apply traffic_issue
    intro t ht
    simp only [chars, List.mem_map] at ht
    obtain ⟨c, hc, rfl⟩ := ht
    exact decimal_code_lt n c hc
  · intro h0
    simp [decimal, h0]
  · intro hpos
    have hne : n ≠ 0 := by omega
    refine ⟨(Nat.digits 10 n).reverse, by simp [decimal, hne], ?_, ?_, ?_, ?_, ?_, ?_⟩
    · intro d hd
      exact Nat.digits_lt_base (by norm_num) (List.mem_reverse.mp hd)
    · rw [List.head?_reverse]
      have hnil : Nat.digits 10 n ≠ [] := Nat.digits_ne_nil_iff_ne_zero.mpr hne
      have hlast := Nat.getLast_digit_ne_zero 10 hne
      rw [List.getLast?_eq_getLast _ hnil]
      intro hc
      exact hlast (Option.some.inj hc)
    · rw [List.foldl_reverse]
      have := Nat.ofDigits_digits 10 n
      rw [Nat.ofDigits_eq_foldr] at this
      simpa [Nat.add_comm, Nat.mul_comm] using this
    · rw [List.length_reverse, Nat.digits_len 10 n (by norm_num) hne]
    · rw [List.length_reverse]
      exact digits_length_pos n hpos
    · rw [List.length_reverse]
      exact digits_length_le_five n h
  · decide
  · have : cstr "42" = [52, 50] := by decide
    rw [this]
    norm_num [decimal]
  · have : cstr "100" = [49, 48, 48] := by decide
    rw [this]
    norm_num [decimal]

/-- Instance of the formatter result at 1023, from the idle port. -/
theorem Display_Number_decimal_witness :
    (1023 : Nat) < 65536 ∧
    ∃ q, Display_Number 1023 ⟨⟨false, false, false, false, false, false⟩, []⟩ = some q ∧
      q = issue (chars (decimal 1023)) ⟨⟨false, false, false, false, false, false⟩, []⟩ ∧
      traffic ⟨⟨false, false, false, false, false, false⟩, []⟩ q = some (chars (decimal 1023)) ∧
      ((1023 : Nat) = 0 → decimal 1023 = [48]) ∧
      (0 < 1023 → ∃ ds : List Nat, decimal 1023 = ds.map (· + 48) ∧
        (∀ d ∈ ds, d < 10) ∧ ds.head? ≠ some 0 ∧
        ds.foldl (fun acc d => 10 * acc + d) 0 = 1023 ∧
        ds.length = Nat.log 10 1023 + 1 ∧ 1 ≤ ds.length ∧ ds.length ≤ 5) ∧
      decimal 0 = cstr "0" ∧ decimal 42 = cstr "42" ∧ decimal 100 = cstr "100" :=
  ⟨by decide, Display_Number_decimal 1023 (by decide) _⟩

/-- C5: in one polling iteration the gate of lines 249-258 rewrites display
line 2 if and only if the light-LED value or the motion-LED value set in that
iteration differs from `previous_light_led` / `previous_motion_led`.  When it
rewrites, the display receives the address command 0xC0, sixteen blanks, the
address command 0xC0 again and the text of line 2.  The decision, and the bytes
sent, are the same whatever `previous_light` and `previous_motion` were, hence
whether or not line 1 was rewritten; when line 2 is not rewritten the gate makes
no store and both LED shadow values are unchanged. -/
theorem line2_gate (adc_value : Nat) (MOTION_SENSOR : Bool) (st : LoopState) :
    ∃ s1 st', main_line1 (light_percentage adc_value) (main_sense adc_value MOTION_SENSOR st)
        = some s1 ∧
      main_line2 s1 = some st' ∧ main_loop adc_value MOTION_SENSOR st = some st' ∧
      s1.LIGHT_LED = decide (light_percentage adc_value < 50) ∧
      s1.MOTION_LED = MOTION_SENSOR ∧
      ((s1.LIGHT_LED.toNat ≠ st.previous_light_led ∨
          s1.MOTION_LED.toNat ≠ st.previous_motion_led) ↔ emitted s1.portd st'.portd ≠ []) ∧
      (¬ (s1.LIGHT_LED.toNat ≠ st.previous_light_led ∨
          s1.MOTION_LED.toNat ≠ st.previous_motion_led) →
        st' = s1 ∧ emitted s1.portd st'.portd = [] ∧ traffic s1.portd st'.portd = some [] ∧
        st'.previous_light_led = st.previous_light_led ∧
        st'.previous_motion_led = st.previous_motion_led) ∧
      (∀ pl pm : Nat, ∃ t1 t',
        main_line1 (light_percentage adc_value)
          (main_sense adc_value MOTION_SENSOR
            { st with previous_light := pl, previous_motion := pm }) = some t1 ∧
        main_line2 t1 = some t' ∧
        (emitted t1.portd t'.portd ≠ [] ↔ emitted s1.portd st'.portd ≠ []) ∧
        traffic t1.portd t'.portd = traffic s1.portd st'.portd) ∧
      ((s1.LIGHT_LED.toNat ≠ st.previous_light_led ∨
          s1.MOTION_LED.toNat ≠ st.previous_motion_led) →
        traffic s1.portd st'.portd = some
          (Transfer.command 0xC0 :: chars (List.replicate 16 32) ++
            Transfer.command 0xC0 ::
              chars (cstr "LT:" ++ cstr (if s1.LIGHT_LED then "ON " else "OFF") ++
                cstr " MT:" ++ cstr (if s1.MOTION_LED then "ON" else "OFF"))) ∧
        st'.previous_light_led = s1.LIGHT_LED.toNat ∧
        st'.previous_motion_led = s1.MOTION_LED.toNat) ∧
      ((s1.LIGHT_LED.toNat ≠ st.previous_light_led ∨
          s1.MOTION_LED.toNat ≠ st.previous_motion_led) ↔
        traffic s1.portd st'.portd ≠ some []) := by
  have fields := after_line1_fields adc_value MOTION_SENSOR
  have gate : ∀ s : LoopState,
      ((s.LIGHT_LED.toNat ≠ s.previous_light_led ∨ s.MOTION_LED.toNat ≠ s.previous_motion_led)
        ↔ emitted s.portd (after_line2 s).portd ≠ []) := by
    intro s
    by_cases hc : s.LIGHT_LED.toNat ≠ s.previous_light_led ∨
        s.MOTION_LED.toNat ≠ s.previous_motion_led
    · simp only [after_line2, hc, if_true, true_iff]
      exact emitted_rewrite_ne_nil _ _ _
    · simp only [after_line2, hc, if_false, false_iff, not_not]
      exact emitted_self _
  have bytes : ∀ s : LoopState, traffic s.portd (after_line2 s).portd =
      if s.LIGHT_LED.toNat ≠ s.previous_light_led ∨ s.MOTION_LED.toNat ≠ s.previous_motion_led
      then some (rewrite_traffic 0xC0 (line2_text s.LIGHT_LED s.MOTION_LED)) else some [] := by
    intro s
    by_cases hc : s.LIGHT_LED.toNat ≠ s.previous_light_led ∨
        s.MOTION_LED.toNat ≠ s.previous_motion_led
    · rw [if_pos hc]; exact after_line2_traffic s hc
    · rw [if_neg hc, after_line2_quiet s hc]; exact traffic_self _
  obtain ⟨f1, f2, f3, f4⟩ := fields st
  refine ⟨_, _, main_line1_eq _ (light_percentage_lt adc_value) _, main_line2_eq _,
    main_loop_eq _ _ _, f1, f2, ?_, ?_, ?_, ?_, ?_⟩
  · rw [← gate, f3, f4]
  · intro hc
    have hc' : ¬ ((after_line1 (light_percentage adc_value)
          (main_sense adc_value MOTION_SENSOR st)).LIGHT_LED.toNat ≠
        (after_line1 (light_percentage adc_value)
          (main_sense adc_value MOTION_SENSOR st)).previous_light_led ∨
        (after_line1 (light_percentage adc_value)
          (main_sense adc_value MOTION_SENSOR st)).MOTION_LED.toNat ≠
        (after_line1 (light_percentage adc_value)
          (main_sense adc_value MOTION_SENSOR st)).previous_motion_led) := by
      rw [f3, f4]; exact hc
    have hs : after_line2 (after_line1 (light_percentage adc_value)
        (main_sense adc_value MOTION_SENSOR st)) =
        after_line1 (light_percentage adc_value) (main_sense adc_value MOTION_SENSOR st) := by
      rw [after_line2, if_neg hc']
    rw [hs]
    exact ⟨rfl, emitted_self _, traffic_self _, f3, f4⟩
  · intro pl pm
    obtain ⟨g1, g2, g3, g4⟩ := fields { st with previous_light := pl, previous_motion := pm }
    refine ⟨_, _, main_line1_eq _ (light_percentage_lt adc_value) _, main_line2_eq _, ?_, ?_⟩
    · rw [← gate, ← gate, f1, f2, f3, f4, g1, g2, g3, g4]
    · rw [bytes, bytes, f1, f2, f3, f4, g1, g2, g3, g4]
  · intro hc
    have hc' : (after_line1 (light_percentage adc_value)
          (main_sense adc_value MOTION_SENSOR st)).LIGHT_LED.toNat ≠
        (after_line1 (light_percentage adc_value)
          (main_sense adc_value MOTION_SENSOR st)).previous_light_led ∨
        (after_line1 (light_percentage adc_value)
          (main_sense adc_value MOTION_SENSOR st)).MOTION_LED.toNat ≠
        (after_line1 (light_percentage adc_value)
          (main_sense adc_value MOTION_SENSOR st)).previous_motion_led := by
      rw [f3, f4]; exact hc
    refine ⟨after_line2_traffic _ hc', ?_, ?_⟩
    · rw [after_line2, if_pos hc']
    · rw [after_line2, if_pos hc']
  · rw [bytes, f3, f4]
    by_cases hc : (after_line1 (light_percentage adc_value)
          (main_sense adc_value MOTION_SENSOR st)).LIGHT_LED.toNat ≠ st.previous_light_led ∨
        (after_line1 (light_percentage adc_value)
          (main_sense adc_value MOTION_SENSOR st)).MOTION_LED.toNat ≠ st.previous_motion_led
    · rw [if_pos hc]
      exact ⟨fun _ => rewrite_traffic_ne_nil _ _, fun _ => hc⟩
    · rw [if_neg hc]
      exact ⟨fun h => absurd h hc, fun h => absurd rfl h⟩

/-- C6: after every polling iteration, from any starting state, the four shadow
values equal the values of that iteration; running the iteration again with the
same sample and the same motion input then makes no store to the LCD lines and
returns the very same loop state. -/
theorem shadows_track (adc_value : Nat) (MOTION_SENSOR : Bool) (st : LoopState) :
    ∃ st', main_loop adc_value MOTION_SENSOR st = some st' ∧
      st'.previous_light = light_percentage adc_value ∧
      st'.motion_detected = MOTION_SENSOR.toNat ∧
      st'.previous_motion = st'.motion_detected ∧
      st'.LIGHT_LED = decide (light_percentage adc_value < 50) ∧
      st'.previous_light_led = st'.LIGHT_LED.toNat ∧
      st'.MOTION_LED = MOTION_SENSOR ∧
      st'.previous_motion_led = st'.MOTION_LED.toNat ∧
      ∃ st2, main_loop adc_value MOTION_SENSOR st' = some st2 ∧
        emitted st'.portd st2.portd = [] ∧ traffic st'.portd st2.portd = some [] ∧
        st2 = st' := by
  obtain ⟨h1, h2, h3, h4, h5, h6, h7⟩ := iteration_fields adc_value MOTION_SENSOR st
  have again := iteration_fixed adc_value MOTION_SENSOR _ h1 h2 h3 h4 h5 h6 h7
  refine ⟨_, main_loop_eq _ _ _, h5, h3, ?_, h1, ?_, h2, ?_, ?_⟩
  · rw [h4, h3]
  · rw [h6, h1]
  · rw [h7, h2]
  · refine ⟨_, main_loop_eq _ _ _, ?_, ?_, again⟩
    · rw [again]; exact emitted_self _
    · rw [again]; exact traffic_self _

/-- C7: whenever a polling iteration rewrites line 1, the bytes the display
receives from the gate of lines 238-247 are, in order: the address command 0x80,
sixteen blanks, the address command 0x80 again, and then exactly the characters
of "L:", the decimal percentage, "% M:" and "YES" (motion present) or "NO "
(three characters, trailing blank).  For every percentage in `[0, 100]` the text
has between 10 and 12 characters, hence at most 16. -/
theorem line1_rewrite (adc_value : Nat) (MOTION_SENSOR : Bool) (st : LoopState)
    (h : light_percentage adc_value ≠ st.previous_light ∨
      MOTION_SENSOR.toNat ≠ st.previous_motion) :
    ∃ s1, main_line1 (light_percentage adc_value) (main_sense adc_value MOTION_SENSOR st)
        = some s1 ∧
      traffic st.portd s1.portd = some
        (Transfer.command 0x80 :: chars (List.replicate 16 32) ++
          Transfer.command 0x80 ::
            chars (cstr "L:" ++ decimal (light_percentage adc_value) ++ cstr "% M:" ++
              cstr (if MOTION_SENSOR then "YES" else "NO "))) ∧
      (cstr "NO ").length = 3 ∧ (cstr "YES").length = 3 ∧
      ∀ (percentage : Nat) (motion : Bool), percentage ≤ 100 →
        10 ≤ (cstr "L:" ++ decimal percentage ++ cstr "% M:" ++
            cstr (if motion then "YES" else "NO ")).length ∧
        (cstr "L:" ++ decimal percentage ++ cstr "% M:" ++
            cstr (if motion then "YES" else "NO ")).length ≤ 12 := by
  refine ⟨_, main_line1_eq _ (light_percentage_lt adc_value) _, ?_, by decide, by decide, ?_⟩
  · have hs : after_line1 (light_percentage adc_value)
        (main_sense adc_value MOTION_SENSOR st) =
        { main_sense adc_value MOTION_SENSOR st with
          portd := issue (rewrite_traffic 0x80
            (line1_text (light_percentage adc_value) MOTION_SENSOR)) st.portd
          previous_light := light_percentage adc_value
          previous_motion := MOTION_SENSOR.toNat } := by
      simp only [after_line1, main_sense_eq, h, if_true]
      cases MOTION_SENSOR <;> simp
    rw [hs]
    exact traffic_issue _
      (rewrite_traffic_code_lt _ _ (by decide) (line1_text_code_lt _ _)) _
  · intro percentage motion hp
    have hd := decimal_length percentage hp
    have h1 : (cstr "L:").length = 2 := by decide
    have h2 : (cstr "% M:").length = 4 := by decide
    have h3 : (cstr (if motion then "YES" else "NO ")).length = 3 := by
      cases motion <;> decide
    simp only [List.length_append, h1, h2, h3]
    omega

/-- Instance of the line 1 rewrite: sample 700 with motion, right after reset. -/
theorem line1_rewrite_witness :
    (light_percentage 700 ≠ (main_reset PortD.low).previous_light ∨
      true.toNat ≠ (main_reset PortD.low).previous_motion) ∧
    ∃ s1, main_line1 (light_percentage 700) (main_sense 700 true (main_reset PortD.low))
        = some s1 ∧
      traffic (main_reset PortD.low).portd s1.portd = some
        (Transfer.command 0x80 :: chars (List.replicate 16 32) ++
          Transfer.command 0x80 ::
            chars (cstr "L:" ++ decimal (light_percentage 700) ++ cstr "% M:" ++
              cstr (if true then "YES" else "NO "))) ∧
      (cstr "NO ").length = 3 ∧ (cstr "YES").length = 3 ∧
      ∀ (percentage : Nat) (motion : Bool), percentage ≤ 100 →
        10 ≤ (cstr "L:" ++ decimal percentage ++ cstr "% M:" ++
            cstr (if motion then "YES" else "NO ")).length ∧
        (cstr "L:" ++ decimal percentage ++ cstr "% M:" ++
            cstr (if motion then "YES" else "NO ")).length ≤ 12 :=
  ⟨by decide, line1_rewrite 700 true (main_reset PortD.low) (by decide)⟩

/-- C8: whenever a polling iteration rewrites line 2, the bytes the display
receives from the gate of lines 249-258 are, in order: the address command 0xC0,
sixteen blanks, the address command 0xC0 again, and then exactly the characters
of "LT:", "ON " or "OFF" for the light LED, " MT:", and "ON" or "OFF" for the
motion LED.  The light field always has 3 characters, the motion field 2 or 3,
and the text 12 or 13, hence at most 16. -/
theorem line2_rewrite (adc_value : Nat) (MOTION_SENSOR : Bool) (st : LoopState)
    (h : (decide (light_percentage adc_value < 50)).toNat ≠ st.previous_light_led ∨
      MOTION_SENSOR.toNat ≠ st.previous_motion_led) :
    ∃ s1 st', main_line1 (light_percentage adc_value) (main_sense adc_value MOTION_SENSOR st)
        = some s1 ∧
      main_line2 s1 = some st' ∧ main_loop adc_value MOTION_SENSOR st = some st' ∧
      st'.LIGHT_LED = decide (light_percentage adc_value < 50) ∧
      st'.MOTION_LED = MOTION_SENSOR ∧
      traffic s1.portd st'.portd = some
        (Transfer.command 0xC0 :: chars (List.replicate 16 32) ++
          Transfer.command 0xC0 ::
            chars (cstr "LT:" ++ cstr (if st'.LIGHT_LED then "ON " else "OFF") ++ cstr " MT:" ++
              cstr (if st'.MOTION_LED then "ON" else "OFF"))) ∧
      (cstr (if st'.LIGHT_LED then "ON " else "OFF")).length = 3 ∧
      (cstr (if st'.MOTION_LED then "ON" else "OFF")).length
        = (if st'.MOTION_LED then 2 else 3) ∧
      (cstr "LT:" ++ cstr (if st'.LIGHT_LED then "ON " else "OFF") ++ cstr " MT:" ++
          cstr (if st'.MOTION_LED then "ON" else "OFF")).length
        = (if st'.MOTION_LED then 12 else 13) := by
  obtain ⟨f1, f2, f3, f4⟩ := after_line1_fields adc_value MOTION_SENSOR st
  obtain ⟨g1, g2, -⟩ := iteration_fields adc_value MOTION_SENSOR st
  have hc : (after_line1 (light_percentage adc_value)
        (main_sense adc_value MOTION_SENSOR st)).LIGHT_LED.toNat ≠
      (after_line1 (light_percentage adc_value)
        (main_sense adc_value MOTION_SENSOR st)).previous_light_led ∨
      (after_line1 (light_percentage adc_value)
        (main_sense adc_value MOTION_SENSOR st)).MOTION_LED.toNat ≠
      (after_line1 (light_percentage adc_value)
        (main_sense adc_value MOTION_SENSOR st)).previous_motion_led := by
    rw [f1, f2, f3, f4]; exact h
  refine ⟨_, _, main_line1_eq _ (light_percentage_lt adc_value) _, main_line2_eq _,
    main_loop_eq _ _ _, g1, g2, ?_, ?_, ?_, ?_⟩
  · rw [g1, g2]
    conv => lhs; rw [after_line2, if_pos hc]
    rw [f1, f2]
    exact traffic_issue _
      (rewrite_traffic_code_lt _ _ (by decide) (line2_text_code_lt _ _)) _
  · rw [g1]; cases decide (light_percentage adc_value < 50) <;> decide
  · rw [g2]; cases MOTION_SENSOR <;> decide
  · rw [g1, g2]
    cases decide (light_percentage adc_value < 50) <;> cases MOTION_SENSOR <;> decide

/-- Instance of the line 2 rewrite: sample 700 with motion, right after reset. -/
theorem line2_rewrite_witness :
    ((decide (light_percentage 700 < 50)).toNat ≠ (main_reset PortD.low).previous_light_led ∨
      true.toNat ≠ (main_reset PortD.low).previous_motion_led) ∧
    ∃ s1 st', main_line1 (light_percentage 700) (main_sense 700 true (main_reset PortD.low))
        = some s1 ∧
      main_line2 s1 = some st' ∧ main_loop 700 true (main_reset PortD.low) = some st' ∧
      st'.LIGHT_LED = decide (light_percentage 700 < 50) ∧
      st'.MOTION_LED = true ∧
      traffic s1.portd st'.portd = some
        (Transfer.command 0xC0 :: chars (List.replicate 16 32) ++
          Transfer.command 0xC0 ::
            chars (cstr "LT:" ++ cstr (if st'.LIGHT_LED then "ON " else "OFF") ++ cstr " MT:" ++
              cstr (if st'.MOTION_LED then "ON" else "OFF"))) ∧
      (cstr (if st'.LIGHT_LED then "ON " else "OFF")).length = 3 ∧
      (cstr (if st'.MOTION_LED then "ON" else "OFF")).length
        = (if st'.MOTION_LED then 2 else 3) ∧
      (cstr "LT:" ++ cstr (if st'.LIGHT_LED then "ON " else "OFF") ++ cstr " MT:" ++
          cstr (if st'.MOTION_LED then "ON" else "OFF")).length
        = (if st'.MOTION_LED then 12 else 13) :=
  ⟨by decide, line2_rewrite 700 true (main_reset PortD.low) (by decide)⟩

/-- C9: for every column `c` with `1 <= c <= 16`, `LCD_Goto(1, c)` is one
`LCD_Cmd` and the display receives exactly the command byte `0x80 + (c - 1)`;
`LCD_Goto(2, c)` likewise with `0xC0 + (c - 1)`.  The byte does not wrap in the
8-bit `address`, lies in `0x80..0x8F` for row 1 and in `0xC0..0xCF` for row 2,
and distinct valid (row, column) pairs put distinct bytes on the bus. -/
theorem LCD_Goto_address (c : Nat) (h1 : 1 ≤ c) (h16 : c ≤ 16) (p : PortD) :
    LCD_Goto 1 c p = LCD_Cmd (0x80 + (c - 1)) p ∧
    LCD_Goto 2 c p = LCD_Cmd (0xC0 + (c - 1)) p ∧
    traffic p (LCD_Goto 1 c p) = some [Transfer.command (0x80 + (c - 1))] ∧
    traffic p (LCD_Goto 2 c p) = some [Transfer.command (0xC0 + (c - 1))] ∧
    0x80 ≤ 0x80 + (c - 1) ∧ 0x80 + (c - 1) ≤ 0x8F ∧
    0xC0 ≤ 0xC0 + (c - 1) ∧ 0xC0 + (c - 1) ≤ 0xCF ∧
    ∀ r r' c' : Nat, (r = 1 ∨ r = 2) → (r' = 1 ∨ r' = 2) → 1 ≤ c' → c' ≤ 16 →
      traffic p (LCD_Goto r c p) = traffic p (LCD_Goto r' c' p) → r = r' ∧ c = c' := by
  have addr1 : ∀ k : Nat, 1 ≤ k → k ≤ 16 → wrap8 (0x80 + ((k : Int) - 1)) = 0x80 + (k - 1) := by
    intro k _ _
    unfold wrap8
    omega
  have addr2 : ∀ k : Nat, 1 ≤ k → k ≤ 16 → wrap8 (0xC0 + ((k : Int) - 1)) = 0xC0 + (k - 1) := by
    intro k _ _
    unfold wrap8
    omega
  have g1 : ∀ k : Nat, 1 ≤ k → k ≤ 16 → ∀ q, LCD_Goto 1 k q = LCD_Cmd (0x80 + (k - 1)) q := by
    intro k hk hk' q
    simp only [LCD_Goto, if_true, addr1 k hk hk']
  have g2 : ∀ k : Nat, 1 ≤ k → k ≤ 16 → ∀ q, LCD_Goto 2 k q = LCD_Cmd (0xC0 + (k - 1)) q := by
    intro k hk hk' q
    simp only [LCD_Goto, addr2 k hk hk']
    rfl
  have tr : ∀ a : Nat, a < 256 → traffic p (LCD_Cmd a p) = some [Transfer.command a] := by
    intro a ha
    rw [LCD_Cmd_issue]
    apply traffic_issue
    intro t ht
    simp only [List.mem_singleton] at ht
    subst ht
    exact ha
  refine ⟨g1 c h1 h16 p, g2 c h1 h16 p, ?_, ?_, by omega, by omega, by omega, by omega, ?_⟩
  · rw [g1 c h1 h16 p]
    exact tr _ (by omega)
  · rw [g2 c h1 h16 p]
    exact tr _ (by omega)
  · intro r r' c' hr hr' hc1 hc16 heq
    rcases hr with rfl | rfl <;> rcases hr' with rfl | rfl
    · rw [g1 c h1 h16 p, g1 c' hc1 hc16 p, tr _ (by omega), tr _ (by omega)] at heq
      simp only [Option.some.injEq, List.cons.injEq, Transfer.command.injEq, and_true] at heq
      omega
    · rw [g1 c h1 h16 p, g2 c' hc1 hc16 p, tr _ (by omega), tr _ (by omega)] at heq
      simp only [Option.some.injEq, List.cons.injEq, Transfer.command.injEq, and_true] at heq
      omega
    · rw [g2 c h1 h16 p, g1 c' hc1 hc16 p, tr _ (by omega), tr _ (by omega)] at heq
      simp only [Option.some.injEq, List.cons.injEq, Transfer.command.injEq, and_true] at heq
      omega
    · rw [g2 c h1 h16 p, g2 c' hc1 hc16 p, tr _ (by omega), tr _ (by omega)] at heq
      simp only [Option.some.injEq, List.cons.injEq, Transfer.command.injEq, and_true] at heq
      omega

/-- Instance of the cursor address at column 5. -/
theorem LCD_Goto_address_witness :
    (1 : Nat) ≤ 5 ∧ (5 : Nat) ≤ 16 ∧
    (LCD_Goto 1 5 PortD.low = LCD_Cmd (0x80 + (5 - 1)) PortD.low ∧
    LCD_Goto 2 5 PortD.low = LCD_Cmd (0xC0 + (5 - 1)) PortD.low ∧
    traffic PortD.low (LCD_Goto 1 5 PortD.low) = some [Transfer.command (0x80 + (5 - 1))] ∧
    traffic PortD.low (LCD_Goto 2 5 PortD.low) = some [Transfer.command (0xC0 + (5 - 1))] ∧
    0x80 ≤ 0x80 + (5 - 1) ∧ 0x80 + (5 - 1) ≤ 0x8F ∧
    0xC0 ≤ 0xC0 + (5 - 1) ∧ 0xC0 + (5 - 1) ≤ 0xCF ∧
    ∀ r r' c' : Nat, (r = 1 ∨ r = 2) → (r' = 1 ∨ r' = 2) → 1 ≤ c' → c' ≤ 16 →
      traffic PortD.low (LCD_Goto r 5 PortD.low) = traffic PortD.low (LCD_Goto r' c' PortD.low) →
        r = r' ∧ 5 = c') :=
  ⟨by decide, by decide, LCD_Goto_address 5 (by decide) (by decide) PortD.low⟩

/-- C10: for every byte `b`, `LCD_Cmd(b)` and `LCD_Char(b)` each store high, low,
high, low to the enable line, giving exactly two falling edges.  At the first
the data lines D7..D4 carry bits 7..4 of `b`, at the second bits 3..0, so that
16 times the first nibble plus the second is `b`.  Register-select is 0 at both
edges for `LCD_Cmd` and 1 at both for `LCD_Char`, and the enable line is low when
the operation returns. -/
theorem byte_transfer (b : Nat) (h : b < 256) (p : PortD) :
    latches p.lines (emitted p (LCD_Cmd b p)) = [⟨false, b / 16⟩, ⟨false, b % 16⟩] ∧
    latches p.lines (emitted p (LCD_Char b p)) = [⟨true, b / 16⟩, ⟨true, b % 16⟩] ∧
    ((emitted p (LCD_Cmd b p)).filter (fun w => decide (w.1 = Line.EN))).map (fun w => w.2)
      = [true, false, true, false] ∧
    ((emitted p (LCD_Char b p)).filter (fun w => decide (w.1 = Line.EN))).map (fun w => w.2)
      = [true, false, true, false] ∧
    b / 16 = 8 * (b / 128 % 2) + 4 * (b / 64 % 2) + 2 * (b / 32 % 2) + b / 16 % 2 ∧
    b % 16 = 8 * (b / 8 % 2) + 4 * (b / 4 % 2) + 2 * (b / 2 % 2) + b % 2 ∧
    16 * (b / 16) + b % 16 = b ∧
    (LCD_Cmd b p).lines.LCD_EN = false ∧ (LCD_Char b p).lines.LCD_EN = false ∧
    traffic p (LCD_Cmd b p) = some [Transfer.command b] ∧
    traffic p (LCD_Char b p) = some [Transfer.character b] := by
  have hhi : b / 16 % 16 = b / 16 := by omega
  have e1 : emitted p (LCD_Cmd b p) = sendWrites false b := by
    simp [emitted, LCD_Cmd_eq]
  have e2 : emitted p (LCD_Char b p) = sendWrites true b := by
    simp [emitted, LCD_Char_eq]
  have l0 : ∀ q : Lines, latches q [] = [] := fun _ => rfl
  have l1 : latches p.lines (sendWrites false b) = [⟨false, b / 16⟩, ⟨false, b % 16⟩] := by
    have := latches_sendWrites false b p.lines []
    rw [List.append_nil, hhi, l0] at this
    exact this
  have l2 : latches p.lines (sendWrites true b) = [⟨true, b / 16⟩, ⟨true, b % 16⟩] := by
    have := latches_sendWrites true b p.lines []
    rw [List.append_nil, hhi, l0] at this
    exact this
  refine ⟨by rw [e1, l1], by rw [e2, l2], ?_, ?_, by omega, by omega, by omega, ?_, ?_, ?_, ?_⟩
  · rw [e1]; simp [sendWrites]
  · rw [e2]; simp [sendWrites]
  · rw [LCD_Cmd_eq]; rfl
  · rw [LCD_Char_eq]; rfl
  · exact traffic_issue [Transfer.command b] (by simpa [Transfer.code] using h) p
  · exact traffic_issue [Transfer.character b] (by simpa [Transfer.code] using h) p

/-- Instance of the byte transfer at byte 0xC5. -/
theorem byte_transfer_witness :
    (0xC5 : Nat) < 256 ∧
    (latches PortD.low.lines (emitted PortD.low (LCD_Cmd 0xC5 PortD.low))
      = [⟨false, 0xC5 / 16⟩, ⟨false, 0xC5 % 16⟩] ∧
    latches PortD.low.lines (emitted PortD.low (LCD_Char 0xC5 PortD.low))
      = [⟨true, 0xC5 / 16⟩, ⟨true, 0xC5 % 16⟩] ∧
    ((emitted PortD.low (LCD_Cmd 0xC5 PortD.low)).filter
        (fun w => decide (w.1 = Line.EN))).map (fun w => w.2)
      = [true, false, true, false] ∧
    ((emitted PortD.low (LCD_Char 0xC5 PortD.low)).filter
        (fun w => decide (w.1 = Line.EN))).map (fun w => w.2)
      = [true, false, true, false] ∧
    0xC5 / 16 = 8 * (0xC5 / 128 % 2) + 4 * (0xC5 / 64 % 2) + 2 * (0xC5 / 32 % 2)
      + 0xC5 / 16 % 2 ∧
    0xC5 % 16 = 8 * (0xC5 / 8 % 2) + 4 * (0xC5 / 4 % 2) + 2 * (0xC5 / 2 % 2) + 0xC5 % 2 ∧
    16 * (0xC5 / 16) + 0xC5 % 16 = 0xC5 ∧
    (LCD_Cmd 0xC5 PortD.low).lines.LCD_EN = false ∧
    (LCD_Char 0xC5 PortD.low).lines.LCD_EN = false ∧
    traffic PortD.low (LCD_Cmd 0xC5 PortD.low) = some [Transfer.command 0xC5] ∧
    traffic PortD.low (LCD_Char 0xC5 PortD.low) = some [Transfer.character 0xC5]) :=
  ⟨by decide, byte_transfer 0xC5 (by decide) PortD.low⟩

/-- C11: for every text of non-zero bytes, followed by the terminator and
anything after it, `LCD_String` does exactly one `LCD_Char` per byte of the
text, in order, and nothing for the terminator or beyond; the empty text makes
no store.  It therefore produces exactly `length(text)` pairs of falling edges
on the enable line, each with register-select = character.  In the scenario,
after `goto(1,1)` has placed the cursor (its address byte 0x80 goes out as a
command), `write_string("L:50% M:YES")` produces exactly 11 pairs, each with
register-select = character. -/
theorem LCD_String_chars (text rest : List Nat) (h : ∀ c ∈ text, c ≠ 0 ∧ c < 256)
    (p : PortD) :
    LCD_String (text ++ 0 :: rest) p = issue (chars text) p ∧
    LCD_String text p = issue (chars text) p ∧
    LCD_String (0 :: rest) p = p ∧ LCD_String [] p = p ∧
    emitted p (LCD_String (0 :: rest) p) = [] ∧
    traffic p (LCD_String (text ++ 0 :: rest) p) = some (chars text) ∧
    (latches p.lines (emitted p (LCD_String (text ++ 0 :: rest) p))).length
      = 2 * text.length ∧
    (∀ l ∈ latches p.lines (emitted p (LCD_String (text ++ 0 :: rest) p)), l.rs = true) ∧
    (cstr "L:50% M:YES").length = 11 ∧
    traffic (LCD_Goto 1 1 p) (LCD_String (cstr "L:50% M:YES") (LCD_Goto 1 1 p))
      = some (chars (cstr "L:50% M:YES")) ∧
    traffic p (LCD_String (cstr "L:50% M:YES") (LCD_Goto 1 1 p))
      = some (Transfer.command 0x80 :: chars (cstr "L:50% M:YES")) ∧
    (Transfer.command 0x80 :: chars (cstr "L:50% M:YES")).length = 12 ∧
    (latches (LCD_Goto 1 1 p).lines
      (emitted (LCD_Goto 1 1 p) (LCD_String (cstr "L:50% M:YES") (LCD_Goto 1 1 p)))).length
      = 2 * 11 ∧
    (∀ l ∈ latches (LCD_Goto 1 1 p).lines
      (emitted (LCD_Goto 1 1 p) (LCD_String (cstr "L:50% M:YES") (LCD_Goto 1 1 p))),
        l.rs = true) := by
  have hnz : ∀ c ∈ text, c ≠ 0 := fun c hc => (h c hc).1
  have hstop := LCD_String_stop text rest hnz p
  have hz : LCD_String (0 :: rest) p = p := by simp [LCD_String]
  have hsc := goto_string_traffic (cstr "L:50% M:YES") (by decide) p
  have hlit : LCD_String (cstr "L:50% M:YES") (LCD_Goto 1 1 p)
      = issue (chars (cstr "L:50% M:YES")) (LCD_Goto 1 1 p) :=
    LCD_String_lit _ (by decide) _
  have hlat := latches_chars (cstr "L:50% M:YES") (LCD_Goto 1 1 p).lines
  have h11 : (cstr "L:50% M:YES").length = 11 := by decide
  refine ⟨hstop, LCD_String_lit text hnz p, hz, rfl, by rw [hz]; exact emitted_self p, ?_, ?_, ?_,
    h11, hsc.1, hsc.2, by decide, ?_, ?_⟩
  · rw [hstop]
    exact traffic_issue _ (chars_code_lt text (fun c hc => (h c hc).2)) p
  · rw [hstop, emitted_issue]
    exact (latches_chars text p.lines).1
  · rw [hstop, emitted_issue]
    exact (latches_chars text p.lines).2
  · rw [hlit, emitted_issue, hlat.1, h11]
  · rw [hlit, emitted_issue]
    exact hlat.2

/-- Instance of the string walk: the text "L:50% M:YES" with nothing after its
terminator, from the idle port. -/
theorem LCD_String_chars_witness :
    (∀ c ∈ cstr "L:50% M:YES", c ≠ 0 ∧ c < 256) ∧
    (LCD_String (cstr "L:50% M:YES" ++ 0 :: []) PortD.low
      = issue (chars (cstr "L:50% M:YES")) PortD.low ∧
    LCD_String (cstr "L:50% M:YES") PortD.low = issue (chars (cstr "L:50% M:YES")) PortD.low ∧
    LCD_String (0 :: []) PortD.low = PortD.low ∧ LCD_String [] PortD.low = PortD.low ∧
    emitted PortD.low (LCD_String (0 :: []) PortD.low) = [] ∧
    traffic PortD.low (LCD_String (cstr "L:50% M:YES" ++ 0 :: []) PortD.low)
      = some (chars (cstr "L:50% M:YES")) ∧
    (latches PortD.low.lines
      (emitted PortD.low (LCD_String (cstr "L:50% M:YES" ++ 0 :: []) PortD.low))).length
      = 2 * (cstr "L:50% M:YES").length ∧
    (∀ l ∈ latches PortD.low.lines
      (emitted PortD.low (LCD_String (cstr "L:50% M:YES" ++ 0 :: []) PortD.low)),
        l.rs = true) ∧
    (cstr "L:50% M:YES").length = 11 ∧
    traffic (LCD_Goto 1 1 PortD.low) (LCD_String (cstr "L:50% M:YES") (LCD_Goto 1 1 PortD.low))
      = some (chars (cstr "L:50% M:YES")) ∧
    traffic PortD.low (LCD_String (cstr "L:50% M:YES") (LCD_Goto 1 1 PortD.low))
      = some (Transfer.command 0x80 :: chars (cstr "L:50% M:YES")) ∧
    (Transfer.command 0x80 :: chars (cstr "L:50% M:YES")).length = 12 ∧
    (latches (LCD_Goto 1 1 PortD.low).lines
      (emitted (LCD_Goto 1 1 PortD.low)
        (LCD_String (cstr "L:50% M:YES") (LCD_Goto 1 1 PortD.low)))).length = 2 * 11 ∧
    (∀ l ∈ latches (LCD_Goto 1 1 PortD.low).lines
      (emitted (LCD_Goto 1 1 PortD.low)
        (LCD_String (cstr "L:50% M:YES") (LCD_Goto 1 1 PortD.low))), l.rs = true)) :=
  ⟨by decide, LCD_String_chars (cstr "L:50% M:YES") [] (by decide) PortD.low⟩

/-- C12: `Clear_Line(1)` puts on the bus the address command 0x80 and then exactly
sixteen characters, each the blank 0x20, and nothing else; `Clear_Line(2)` does
the same after the address command 0xC0.  With the cursor advancing by one per
character, the sixteen blanks land in the cells `base + 0 .. base + 15`, which
are the cells `LCD_Goto` addresses as columns 1..16 of that row, and none of
them is a cell of the other row. -/
theorem Clear_Line_blanks (p : PortD) (cursor : Option Nat) :
    traffic p (Clear_Line 1 p)
      = some (Transfer.command 0x80 :: chars (List.replicate 16 0x20)) ∧
    traffic p (Clear_Line 2 p)
      = some (Transfer.command 0xC0 :: chars (List.replicate 16 0x20)) ∧
    (chars (List.replicate 16 0x20)).length = 16 ∧
    (∀ t ∈ chars (List.replicate 16 0x20), t = Transfer.character 0x20) ∧
    cells_written cursor (Transfer.command 0x80 :: chars (List.replicate 16 0x20))
      = (List.range 16).map (fun k => some (0x80 + k)) ∧
    cells_written cursor (Transfer.command 0xC0 :: chars (List.replicate 16 0x20))
      = (List.range 16).map (fun k => some (0xC0 + k)) ∧
    (∀ c : Nat, 1 ≤ c → c ≤ 16 →
      traffic p (LCD_Goto 1 c p) = some [Transfer.command (0x80 + (c - 1))] ∧
      traffic p (LCD_Goto 2 c p) = some [Transfer.command (0xC0 + (c - 1))]) ∧
    (∀ k c : Nat, k < 16 → 1 ≤ c → c ≤ 16 →
      0x80 + k ≠ 0xC0 + (c - 1) ∧ 0xC0 + k ≠ 0x80 + (c - 1)) := by
  have hcode : ∀ a : Nat, a < 256 →
      ∀ t ∈ Transfer.command a :: chars (List.replicate 16 0x20), t.code < 256 := by
    intro a ha t ht
    simp only [List.mem_cons] at ht
    rcases ht with rfl | ht
    · exact ha
    · exact chars_code_lt _ (by decide) t ht
  refine ⟨?_, ?_, by decide, by decide, rfl, rfl, ?_, ?_⟩
  · rw [Clear_Line_one]
    exact traffic_issue _ (hcode 0x80 (by decide)) p
  · rw [Clear_Line_two]
    exact traffic_issue _ (hcode 0xC0 (by decide)) p
  · intro c h1 h16
    rw [LCD_Goto_row1 c h1 h16, LCD_Goto_other 2 c (by decide) h1 h16]
    exact ⟨traffic_LCD_Cmd _ (by omega) p, traffic_LCD_Cmd _ (by omega) p⟩
  · intro k c hk h1 h16
    omega

/-- Counterexample to C13 as stated: in a polling iteration right after reset,
sample 1023 gives percentage 0 and leaves the light LED on, not off, and sample
0 gives percentage 100 and leaves the light LED off, not on. -/
theorem bright_dark_led_inverted :
    (∃ st', main_loop 1023 false (main_reset PortD.low) = some st' ∧
      light_percentage 1023 = 0 ∧ ¬ st'.LIGHT_LED = false) ∧
    (∃ st', main_loop 0 false (main_reset PortD.low) = some st' ∧
      light_percentage 0 = 100 ∧ ¬ st'.LIGHT_LED = true) := by
  refine ⟨⟨_, main_loop_eq _ _ _, by decide, ?_⟩, ⟨_, main_loop_eq _ _ _, by decide, ?_⟩⟩
  · rw [(iteration_fields 1023 false (main_reset PortD.low)).1]
    decide
  · rw [(iteration_fields 0 false (main_reset PortD.low)).1]
    decide

/-- C13, as amended: in a polling iteration with raw sample 1023 the computed
percentage is 0 and the light LED is on; with raw sample 0 the computed
percentage is 100 and the light LED is off.  This holds from every state and for
either level of the motion pin. -/
theorem extreme_samples (MOTION_SENSOR : Bool) (st : LoopState) :
    (∃ st', main_loop 1023 MOTION_SENSOR st = some st' ∧
      light_percentage 1023 = 0 ∧ st'.LIGHT_LED = true) ∧
    (∃ st', main_loop 0 MOTION_SENSOR st = some st' ∧
      light_percentage 0 = 100 ∧ st'.LIGHT_LED = false) := by
  refine ⟨⟨_, main_loop_eq _ _ _, by decide, ?_⟩, ⟨_, main_loop_eq _ _ _, by decide, ?_⟩⟩
  · rw [(iteration_fields 1023 MOTION_SENSOR st).1]
    decide
  · rw [(iteration_fields 0 MOTION_SENSOR st).1]
    decide

/-- C15: the light percentage does not increase with the raw sample: for all
samples `s1 <= s2` in `[0, 1023]` the percentage of `s1` is at least that of
`s2`; the percentage of 0 is 100 and that of 1023 is 0. -/
theorem light_percentage_antitone (s1 s2 : Nat) (h12 : s1 ≤ s2) (h2 : s2 ≤ 1023) :
    light_percentage s2 ≤ light_percentage s1 ∧
    light_percentage 0 = 100 ∧ light_percentage 1023 = 0 := by
  refine ⟨?_, by decide, by decide⟩
  rw [light_percentage_eq s1 (by omega), light_percentage_eq s2 h2]
  omega

/-- Instance of the monotonicity at samples 512 and 522. -/
theorem light_percentage_antitone_witness :
    (512 : Nat) ≤ 522 ∧ (522 : Nat) ≤ 1023 ∧
    (light_percentage 522 ≤ light_percentage 512 ∧
    light_percentage 0 = 100 ∧ light_percentage 1023 = 0) :=
  ⟨by decide, by decide, light_percentage_antitone 512 522 (by decide) (by decide)⟩

/-- Counterexample to C16 as stated: `goto(3,1)` is not rejected; from the idle
port it stores to the LCD lines and the display receives the address command
0xC0. -/
theorem goto_row3_not_rejected :
    emitted PortD.low (LCD_Goto 3 1 PortD.low) ≠ [] ∧
    traffic PortD.low (LCD_Goto 3 1 PortD.low) = some [Transfer.command 0xC0] := by
  have h : LCD_Goto 3 1 PortD.low = issue [Transfer.command 0xC0] PortD.low := rfl
  rw [h]
  exact ⟨by rw [emitted_issue]; exact issueWrites_ne_nil _ _,
    traffic_issue _ (by decide) _⟩

/-- C16, as amended: `LCD_Goto` has no error result.  Called with a row other
than 1 (any `unsigned char` value 0 or 2..255), in particular a row outside
{1,2} such as `goto(3,1)`, and a column in `[1, 16]`, it takes the branch of row
2: the row reaches the function unchanged, it does what `goto(2, col)` does and
the display receives the single address command `0xC0 + (col - 1)`. -/
theorem LCD_Goto_any_row (row col : Nat) (hbyte : row < 256) (hr : row ≠ 1) (h1 : 1 ≤ col)
    (h16 : col ≤ 16) (p : PortD) :
    wrap8 (row : Int) = row ∧
    LCD_Goto row col p = LCD_Goto 2 col p ∧
    LCD_Goto row col p = LCD_Cmd (0xC0 + (col - 1)) p ∧
    emitted p (LCD_Goto row col p) ≠ [] ∧
    traffic p (LCD_Goto row col p) = some [Transfer.command (0xC0 + (col - 1))] := by
  have hrow := LCD_Goto_other row col hr h1 h16 p
  have htwo := LCD_Goto_other 2 col (by decide) h1 h16 p
  refine ⟨by unfold wrap8; omega, by rw [hrow, htwo], hrow, ?_, ?_⟩
  · rw [hrow, LCD_Cmd_issue, emitted_issue]
    exact issueWrites_ne_nil _ _
  · rw [hrow]
    exact traffic_LCD_Cmd _ (by omega) p

/-- Instance of the row handling at `goto(3,1)`, from the idle port. -/
theorem LCD_Goto_any_row_witness :
    (3 : Nat) < 256 ∧ (3 : Nat) ≠ 1 ∧ (1 : Nat) ≤ 1 ∧ (1 : Nat) ≤ 16 ∧
    (wrap8 ((3 : Nat) : Int) = 3 ∧
    LCD_Goto 3 1 PortD.low = LCD_Goto 2 1 PortD.low ∧
    LCD_Goto 3 1 PortD.low = LCD_Cmd (0xC0 + (1 - 1)) PortD.low ∧
    emitted PortD.low (LCD_Goto 3 1 PortD.low) ≠ [] ∧
    traffic PortD.low (LCD_Goto 3 1 PortD.low) = some [Transfer.command (0xC0 + (1 - 1))]) :=
  ⟨by decide, by decide, by decide, by decide,
    LCD_Goto_any_row 3 1 (by decide) (by decide) (by decide) (by decide) PortD.low⟩

/-- C14: take two consecutive polling iterations in which the motion input goes
from false to true while the computed light percentage is the same.  The second
iteration rewrites line 1: the display receives the address command 0x80,
sixteen blanks, the address command 0x80 and "L:", the percentage, "% M:YES".
It rewrites line 2 exactly when the light-LED or the motion-LED value differs
from its shadow value; and since the motion LED follows the motion input, the
motion-LED value does differ from its shadow, so line 2 is rewritten in that
iteration as well: the display receives the address command 0xC0, sixteen
blanks, the address command 0xC0 and "LT:", "ON " or "OFF", " MT:ON". -/
theorem motion_rise_rewrites_both (adc1 adc2 : Nat) (st : LoopState)
    (h : light_percentage adc1 = light_percentage adc2) :
    ∃ st1 s1 st2, main_loop adc1 false st = some st1 ∧
      main_line1 (light_percentage adc2) (main_sense adc2 true st1) = some s1 ∧
      main_line2 s1 = some st2 ∧ main_loop adc2 true st1 = some st2 ∧
      emitted st1.portd s1.portd ≠ [] ∧
      ((s1.LIGHT_LED.toNat ≠ st1.previous_light_led ∨
          s1.MOTION_LED.toNat ≠ st1.previous_motion_led) ↔ emitted s1.portd st2.portd ≠ []) ∧
      s1.LIGHT_LED.toNat = st1.previous_light_led ∧
      s1.MOTION_LED.toNat ≠ st1.previous_motion_led ∧
      emitted s1.portd st2.portd ≠ [] ∧
      traffic st1.portd s1.portd = some
        (Transfer.command 0x80 :: chars (List.replicate 16 32) ++
          Transfer.command 0x80 ::
            chars (cstr "L:" ++ decimal (light_percentage adc2) ++ cstr "% M:" ++
              cstr "YES")) ∧
      ((s1.LIGHT_LED.toNat ≠ st1.previous_light_led ∨
          s1.MOTION_LED.toNat ≠ st1.previous_motion_led) ↔
        traffic s1.portd st2.portd ≠ some []) ∧
      traffic s1.portd st2.portd = some
        (Transfer.command 0xC0 :: chars (List.replicate 16 32) ++
          Transfer.command 0xC0 ::
            chars (cstr "LT:" ++ cstr (if s1.LIGHT_LED then "ON " else "OFF") ++
              cstr " MT:" ++ cstr "ON")) := by
  obtain ⟨-, -, -, e4, -, e6, e7⟩ := iteration_fields adc1 false st
  obtain ⟨f1, f2, f3, f4⟩ := after_line1_fields adc2 true
    (after_line2 (after_line1 (light_percentage adc1) (main_sense adc1 false st)))
  have hsense : (main_sense adc2 true (after_line2 (after_line1 (light_percentage adc1)
      (main_sense adc1 false st)))).portd =
      (after_line2 (after_line1 (light_percentage adc1) (main_sense adc1 false st))).portd := by
    rw [main_sense_eq]
  have hmd : (main_sense adc2 true (after_line2 (after_line1 (light_percentage adc1)
      (main_sense adc1 false st)))).motion_detected = 1 := by
    rw [main_sense_eq]; rfl
  have hpm : (main_sense adc2 true (after_line2 (after_line1 (light_percentage adc1)
      (main_sense adc1 false st)))).previous_motion = 0 := by
    rw [main_sense_eq]; exact e4
  have hgate2 := after_line2_emitted (after_line1 (light_percentage adc2)
    (main_sense adc2 true (after_line2 (after_line1 (light_percentage adc1)
      (main_sense adc1 false st)))))
  rw [f3, f4] at hgate2
  have hled : (after_line1 (light_percentage adc2)
      (main_sense adc2 true (after_line2 (after_line1 (light_percentage adc1)
        (main_sense adc1 false st))))).MOTION_LED.toNat ≠
      (after_line2 (after_line1 (light_percentage adc1)
        (main_sense adc1 false st))).previous_motion_led := by
    rw [f2, e7]; decide
  have hc1 : light_percentage adc2 ≠
        (after_line2 (after_line1 (light_percentage adc1)
          (main_sense adc1 false st))).previous_light ∨
      true.toNat ≠ (after_line2 (after_line1 (light_percentage adc1)
          (main_sense adc1 false st))).previous_motion := by
    right
    rw [e4]
    decide
  have ht1 := after_line1_traffic adc2 true _ hc1
  have hc2 : (after_line1 (light_percentage adc2)
      (main_sense adc2 true (after_line2 (after_line1 (light_percentage adc1)
        (main_sense adc1 false st))))).LIGHT_LED.toNat ≠
      (after_line1 (light_percentage adc2)
      (main_sense adc2 true (after_line2 (after_line1 (light_percentage adc1)
        (main_sense adc1 false st))))).previous_light_led ∨
      (after_line1 (light_percentage adc2)
      (main_sense adc2 true (after_line2 (after_line1 (light_percentage adc1)
        (main_sense adc1 false st))))).MOTION_LED.toNat ≠
      (after_line1 (light_percentage adc2)
      (main_sense adc2 true (after_line2 (after_line1 (light_percentage adc1)
        (main_sense adc1 false st))))).previous_motion_led := by
    right
    rw [f4]
    exact hled
  have ht2 := after_line2_traffic _ hc2
  have hm : line2_text (after_line1 (light_percentage adc2)
      (main_sense adc2 true (after_line2 (after_line1 (light_percentage adc1)
        (main_sense adc1 false st))))).LIGHT_LED
      (after_line1 (light_percentage adc2)
      (main_sense adc2 true (after_line2 (after_line1 (light_percentage adc1)
        (main_sense adc1 false st))))).MOTION_LED =
      cstr "LT:" ++ cstr (if (after_line1 (light_percentage adc2)
      (main_sense adc2 true (after_line2 (after_line1 (light_percentage adc1)
        (main_sense adc1 false st))))).LIGHT_LED then "ON " else "OFF") ++
        cstr " MT:" ++ cstr "ON" := by
    rw [f2]
    rfl
  rw [hm] at ht2
  refine ⟨_, _, _, main_loop_eq _ _ _, main_line1_eq _ (light_percentage_lt adc2) _,
    main_line2_eq _, main_loop_eq _ _ _, ?_, hgate2, ?_, hled, hgate2.mp (Or.inr hled),
    ht1, ?_, ht2⟩
  · rw [← hsense]
    apply (after_line1_emitted _ _).mp
    right
    rw [hmd, hpm]
    decide
  · rw [f1, e6, h]
  · rw [ht2]
    exact ⟨fun _ => rewrite_traffic_ne_nil _ _, fun _ => Or.inr hled⟩

/-- Instance of the motion rise: samples 700 and 701 give the same percentage,
right after reset. -/
theorem motion_rise_rewrites_both_witness :
    light_percentage 700 = light_percentage 701 ∧
    ∃ st1 s1 st2, main_loop 700 false (main_reset PortD.low) = some st1 ∧
      main_line1 (light_percentage 701) (main_sense 701 true st1) = some s1 ∧
      main_line2 s1 = some st2 ∧ main_loop 701 true st1 = some st2 ∧
      emitted st1.portd s1.portd ≠ [] ∧
      ((s1.LIGHT_LED.toNat ≠ st1.previous_light_led ∨
          s1.MOTION_LED.toNat ≠ st1.previous_motion_led) ↔ emitted s1.portd st2.portd ≠ []) ∧
      s1.LIGHT_LED.toNat = st1.previous_light_led ∧
      s1.MOTION_LED.toNat ≠ st1.previous_motion_led ∧
      emitted s1.portd st2.portd ≠ [] ∧
      traffic st1.portd s1.portd = some
        (Transfer.command 0x80 :: chars (List.replicate 16 32) ++
          Transfer.command 0x80 ::
            chars (cstr "L:" ++ decimal (light_percentage 701) ++ cstr "% M:" ++
              cstr "YES")) ∧
      ((s1.LIGHT_LED.toNat ≠ st1.previous_light_led ∨
          s1.MOTION_LED.toNat ≠ st1.previous_motion_led) ↔
        traffic s1.portd st2.portd ≠ some []) ∧
      traffic s1.portd st2.portd = some
        (Transfer.command 0xC0 :: chars (List.replicate 16 32) ++
          Transfer.command 0xC0 ::
            chars (cstr "LT:" ++ cstr (if s1.LIGHT_LED then "ON " else "OFF") ++
              cstr " MT:" ++ cstr "ON")) :=
  ⟨by decide, motion_rise_rewrites_both 700 701 (main_reset PortD.low) (by decide)⟩

/-- C17: for every channel in 0..7 and every prior value of the 8-bit registers,
`ADC_Read(channel)` sets bits 5..3 of `ADCON0` to the channel, starts a
conversion (`GO_nDONE` = 1 with that channel selected), and after completion has
left bits 7, 6, 1 and 0 of `ADCON0` as they were and returns
`256 * ADRESH + ADRESL`; when `ADRESH <= 3` the sample lies in `[0, 1023]`.
After `ADC_Init`, `ADC_Read(0)` leaves channel 0 selected. -/
theorem ADC_Read_channel (channel polls hi lo : Nat) (r : AdcRegs)
    (hch : channel ≤ 7) (hr : r.ADCON0 < 256) (hhi : hi < 256) (hlo : lo < 256) :
    (ADC_Read_start channel r).ADCON0 / 8 % 8 = channel ∧
    (ADC_Read_start channel r).ADCON0 / 4 % 2 = 1 ∧
    (ADC_Read channel polls hi lo r).2.ADCON0 / 8 % 8 = channel ∧
    (ADC_Read channel polls hi lo r).2.ADCON0 / 128 % 2 = r.ADCON0 / 128 % 2 ∧
    (ADC_Read channel polls hi lo r).2.ADCON0 / 64 % 2 = r.ADCON0 / 64 % 2 ∧
    (ADC_Read channel polls hi lo r).2.ADCON0 / 2 % 2 = r.ADCON0 / 2 % 2 ∧
    (ADC_Read channel polls hi lo r).2.ADCON0 % 2 = r.ADCON0 % 2 ∧
    (ADC_Read channel polls hi lo r).2.ADCON0 / 4 % 2 = 0 ∧
    (ADC_Read channel polls hi lo r).2.ADRESH = hi ∧
    (ADC_Read channel polls hi lo r).2.ADRESL = lo ∧
    (ADC_Read channel polls hi lo r).1
      = 256 * (ADC_Read channel polls hi lo r).2.ADRESH
        + (ADC_Read channel polls hi lo r).2.ADRESL ∧
    (hi ≤ 3 → (ADC_Read channel polls hi lo r).1 ≤ 1023) ∧
    (ADC_Read 0 polls hi lo (ADC_Init r)).2.ADCON0 / 8 % 8 = 0 ∧
    (ADC_Read 0 polls hi lo (ADC_Init r)).2.ADCON0 = 0x41 := by
  obtain ⟨b1, b2, b3, b4, b5, b6, b7, b8⟩ := channel_select_bits r.ADCON0 hr channel (by omega)
  have hstart : (ADC_Read_start channel r).ADCON0
      = ((r.ADCON0 &&& 0xC7) ||| (channel <<< 3)) % 256 ||| 0x04 := rfl
  have hA : (ADC_Read channel polls hi lo r).2.ADCON0
      = (((r.ADCON0 &&& 0xC7) ||| (channel <<< 3)) % 256 ||| 0x04) &&& 0xFB := by
    simp only [ADC_Read, ADC_Read_wait_eq, ADC_Read_start]
  have hH : (ADC_Read channel polls hi lo r).2.ADRESH = hi := by
    simp only [ADC_Read, ADC_Read_wait_eq]
  have hL : (ADC_Read channel polls hi lo r).2.ADRESL = lo := by
    simp only [ADC_Read, ADC_Read_wait_eq]
  have hval : (ADC_Read channel polls hi lo r).1 = 256 * hi + lo := by
    simp only [ADC_Read, ADC_Read_wait_eq, Nat.shiftLeft_eq]
    unfold wrap16
    omega
  have hinit : (ADC_Read 0 polls hi lo (ADC_Init r)).2.ADCON0 = 0x41 := by
    simp only [ADC_Read, ADC_Read_wait_eq, ADC_Read_start, ADC_Init]
    decide
  rw [hA, hH, hL, hval, hstart, hinit]
  exact ⟨b1, b2, b3, b4, b5, b6, b7, b8, rfl, rfl, rfl, fun h3 => by omega, by decide, rfl⟩

/-- Instance of the ADC read: channel 0 after `ADC_Init`, result bytes 2 and 188. -/
theorem ADC_Read_channel_witness :
    (0 : Nat) ≤ 7 ∧ (ADC_Init ⟨0, 0, 0, 0, 0⟩).ADCON0 < 256 ∧ (2 : Nat) < 256 ∧
    (188 : Nat) < 256 ∧
    ((ADC_Read_start 0 (ADC_Init ⟨0, 0, 0, 0, 0⟩)).ADCON0 / 8 % 8 = 0 ∧
    (ADC_Read_start 0 (ADC_Init ⟨0, 0, 0, 0, 0⟩)).ADCON0 / 4 % 2 = 1 ∧
    (ADC_Read 0 3 2 188 (ADC_Init ⟨0, 0, 0, 0, 0⟩)).2.ADCON0 / 8 % 8 = 0 ∧
    (ADC_Read 0 3 2 188 (ADC_Init ⟨0, 0, 0, 0, 0⟩)).2.ADCON0 / 128 % 2
      = (ADC_Init ⟨0, 0, 0, 0, 0⟩).ADCON0 / 128 % 2 ∧
    (ADC_Read 0 3 2 188 (ADC_Init ⟨0, 0, 0, 0, 0⟩)).2.ADCON0 / 64 % 2
      = (ADC_Init ⟨0, 0, 0, 0, 0⟩).ADCON0 / 64 % 2 ∧
    (ADC_Read 0 3 2 188 (ADC_Init ⟨0, 0, 0, 0, 0⟩)).2.ADCON0 / 2 % 2
      = (ADC_Init ⟨0, 0, 0, 0, 0⟩).ADCON0 / 2 % 2 ∧
    (ADC_Read 0 3 2 188 (ADC_Init ⟨0, 0, 0, 0, 0⟩)).2.ADCON0 % 2
      = (ADC_Init ⟨0, 0, 0, 0, 0⟩).ADCON0 % 2 ∧
    (ADC_Read 0 3 2 188 (ADC_Init ⟨0, 0, 0, 0, 0⟩)).2.ADCON0 / 4 % 2 = 0 ∧
    (ADC_Read 0 3 2 188 (ADC_Init ⟨0, 0, 0, 0, 0⟩)).2.ADRESH = 2 ∧
    (ADC_Read 0 3 2 188 (ADC_Init ⟨0, 0, 0, 0, 0⟩)).2.ADRESL = 188 ∧
    (ADC_Read 0 3 2 188 (ADC_Init ⟨0, 0, 0, 0, 0⟩)).1
      = 256 * (ADC_Read 0 3 2 188 (ADC_Init ⟨0, 0, 0, 0, 0⟩)).2.ADRESH
        + (ADC_Read 0 3 2 188 (ADC_Init ⟨0, 0, 0, 0, 0⟩)).2.ADRESL ∧
    ((2 : Nat) ≤ 3 → (ADC_Read 0 3 2 188 (ADC_Init ⟨0, 0, 0, 0, 0⟩)).1 ≤ 1023) ∧
    (ADC_Read 0 3 2 188 (ADC_Init (ADC_Init ⟨0, 0, 0, 0, 0⟩))).2.ADCON0 / 8 % 8 = 0 ∧
    (ADC_Read 0 3 2 188 (ADC_Init (ADC_Init ⟨0, 0, 0, 0, 0⟩))).2.ADCON0 = 0x41) :=
  ⟨by decide, by decide, by decide, by decide,
    ADC_Read_channel 0 3 2 188 (ADC_Init ⟨0, 0, 0, 0, 0⟩) (by decide) (by decide) (by decide)
      (by decide)⟩

/-- C19: on the raw sample the light-LED decision of a polling iteration is one
threshold: for every sample `s` in `[0, 1023]` the light LED is on after the
iteration if and only if `s >= 522`.  Samples 512..521 give a percentage of
exactly 50 and samples 0..511 give more than 50, all with the LED off. -/
theorem light_led_threshold (s : Nat) (hs : s ≤ 1023) (MOTION_SENSOR : Bool)
    (st : LoopState) :
    ∃ st', main_loop s MOTION_SENSOR st = some st' ∧
      (st'.LIGHT_LED = true ↔ 522 ≤ s) ∧
      (512 ≤ s → s ≤ 521 → light_percentage s = 50 ∧ st'.LIGHT_LED = false) ∧
      (s ≤ 511 → 50 < light_percentage s ∧ st'.LIGHT_LED = false) := by
  have hled := (iteration_fields s MOTION_SENSOR st).1
  have hlp := light_percentage_eq s hs
  refine ⟨_, main_loop_eq _ _ _, ?_, ?_, ?_⟩
  · rw [hled, decide_eq_true_iff, hlp]
    omega
  · intro h1 h2
    rw [hled, decide_eq_false_iff_not, hlp]
    omega
  · intro h1
    rw [hled, decide_eq_false_iff_not, hlp]
    omega

/-- Instance of the threshold at sample 522, right after reset. -/
theorem light_led_threshold_witness :
    (522 : Nat) ≤ 1023 ∧
    ∃ st', main_loop 522 false (main_reset PortD.low) = some st' ∧
      (st'.LIGHT_LED = true ↔ 522 ≤ 522) ∧
      (512 ≤ 522 → 522 ≤ 521 → light_percentage 522 = 50 ∧ st'.LIGHT_LED = false) ∧
      (522 ≤ 511 → 50 < light_percentage 522 ∧ st'.LIGHT_LED = false) :=
  ⟨by decide, light_led_threshold 522 (by decide) false (main_reset PortD.low)⟩

/-- C18: for every unsigned 16-bit `n`, `Display_Number(n)` returns, and every
access it makes to `buffer[6]` is inside the array: the packing loop stores `k`
digits at the indices 0, 1, ..., k-1 in that order, with `k` at most 5 (so the
indices are at most 4), and the emit loop then reads the indices k-1, ..., 1, 0,
that is, exactly the cells stored in this call, each once, in the reverse of the
order of writing.  For `n = 0` the buffer is not touched. -/
theorem Display_Number_accesses (n : Nat) (h : n < 65536) (p : PortD) :
    ∃ q log k, Display_Number_log n p = some (q, log) ∧ Display_Number n p = some q ∧
      k ≤ 5 ∧ (n = 0 → k = 0) ∧ (0 < n → k = (Nat.digits 10 n).length ∧ 1 ≤ k) ∧
      log = (List.range k).map Access.store ++ (List.range k).reverse.map Access.load ∧
      (∀ i, Access.store i ∈ log ∨ Access.load i ∈ log → i ≤ 4 ∧ i < Buffer.fresh.length) ∧
      (∀ i, Access.load i ∈ log ↔ Access.store i ∈ log) := by
  have hmem : ∀ k : Nat, k ≤ 5 → ∀ i,
      (Access.store i ∈ (List.range k).map Access.store ++
          (List.range k).reverse.map Access.load ↔ i < k) ∧
      (Access.load i ∈ (List.range k).map Access.store ++
          (List.range k).reverse.map Access.load ↔ i < k) := by
    intro k _ i
    simp
  have hbounds : ∀ k : Nat, k ≤ 5 →
      (∀ i, Access.store i ∈ (List.range k).map Access.store ++
            (List.range k).reverse.map Access.load ∨
          Access.load i ∈ (List.range k).map Access.store ++
            (List.range k).reverse.map Access.load → i ≤ 4 ∧ i < Buffer.fresh.length) ∧
      (∀ i, Access.load i ∈ (List.range k).map Access.store ++
            (List.range k).reverse.map Access.load ↔
          Access.store i ∈ (List.range k).map Access.store ++
            (List.range k).reverse.map Access.load) := by
    intro k hk
    refine ⟨?_, ?_⟩
    · intro i hi
      have hlen : Buffer.fresh.length = 6 := by simp [Buffer.fresh]
      rcases hi with hi | hi
      · have := ((hmem k hk i).1).mp hi; omega
      · have := ((hmem k hk i).2).mp hi; omega
    · intro i
      rw [(hmem k hk i).1, (hmem k hk i).2]
  by_cases h0 : n = 0
  · subst h0
    refine ⟨LCD_Char 48 p, [], 0, rfl, rfl, by omega, fun _ => rfl, fun hp => by omega, rfl, ?_, ?_⟩
    · intro i hi
      simp at hi
    · intro i
      simp
  · have h5 := digits_length_le_five n h
    refine ⟨_, _, (Nat.digits 10 n).length, Display_Number_log_spec n h h0 p,
      Display_Number_eq n h p, h5, fun hz => absurd hz h0,
      fun hp => ⟨rfl, digits_length_pos n hp⟩, rfl, (hbounds _ h5).1, (hbounds _ h5).2⟩

/-- Instance of the buffer accesses at 65535, the largest 16-bit value, from the
idle port. -/
theorem Display_Number_accesses_witness :
    (65535 : Nat) < 65536 ∧
    ∃ q log k, Display_Number_log 65535 PortD.low = some (q, log) ∧
      Display_Number 65535 PortD.low = some q ∧
      k ≤ 5 ∧ ((65535 : Nat) = 0 → k = 0) ∧
      (0 < 65535 → k = (Nat.digits 10 65535).length ∧ 1 ≤ k) ∧
      log = (List.range k).map Access.store ++ (List.range k).reverse.map Access.load ∧
      (∀ i, Access.store i ∈ log ∨ Access.load i ∈ log → i ≤ 4 ∧ i < Buffer.fresh.length) ∧
      (∀ i, Access.load i ∈ log ↔ Access.store i ∈ log) :=
  ⟨by decide, Display_Number_accesses 65535 (by decide) PortD.low⟩

/-- C20: start from the reset state that precedes the polling loop (all four
shadow values 0, both LEDs off, display cleared).  After any finite sequence of
polling iterations with every sample at most 521 and the motion input 0, the
next such iteration makes no store from the gate of line 2; over the whole run
the display receives only rewrites of line 1, never the address command 0xC0,
and every character lands in a cell of row 1, so "LT:OFF MT:OFF" is never
shown.  Likewise, when every sample is 1023 and the motion input is 0, no
iteration stores from the gate of line 1, the display never receives the address
command 0x80, and every character lands in a cell of row 2. -/
theorem zero_shadow_line_stays_blank (p : PortD) (inputs : List (Nat × Bool))
    (adc_value : Nat) :
    ((∀ x ∈ inputs, x.1 ≤ 521 ∧ x.2 = false) → adc_value ≤ 521 →
      ∃ st s1 ts, main_run inputs (main_reset p) = some st ∧
        main_line1 (light_percentage adc_value) (main_sense adc_value false st) = some s1 ∧
        main_line2 s1 = some s1 ∧ emitted s1.portd s1.portd = [] ∧
        main_loop adc_value false st = some s1 ∧
        main_run (inputs ++ [(adc_value, false)]) (main_reset p) = some s1 ∧
        traffic (main_reset p).portd s1.portd = some ts ∧
        Transfer.command 0xC0 ∉ ts ∧
        ∀ cursor, ∀ c ∈ cells_written cursor ts, ∃ k, k < 16 ∧ c = some (0x80 + k)) ∧
    ((∀ x ∈ inputs, x.1 = 1023 ∧ x.2 = false) →
      ∃ st s1 st' ts, main_run inputs (main_reset p) = some st ∧
        main_line1 (light_percentage 1023) (main_sense 1023 false st) = some s1 ∧
        s1 = main_sense 1023 false st ∧ emitted st.portd s1.portd = [] ∧
        main_line2 s1 = some st' ∧ main_loop 1023 false st = some st' ∧
        main_run (inputs ++ [(1023, false)]) (main_reset p) = some st' ∧
        traffic (main_reset p).portd st'.portd = some ts ∧
        Transfer.command 0x80 ∉ ts ∧
        ∀ cursor, ∀ c ∈ cells_written cursor ts, ∃ k, k < 16 ∧ c = some (0xC0 + k)) := by
  refine ⟨?_, ?_⟩
  · intro hin hadc
    obtain ⟨st, lps, hrun, hle, hportd, hl1, hl2⟩ := run_led_off inputs (main_reset p) hin rfl rfl
    obtain ⟨lps', hle', hfix, hportd', -, -⟩ := step_led_off adc_value hadc st hl1 hl2
    have hall : ∀ lp ∈ lps ++ lps', lp ≤ 100 := by
      intro lp hlp
      rcases List.mem_append.mp hlp with hlp | hlp
      · exact hle lp hlp
      · exact hle' lp hlp
    have hp : (after_line1 (light_percentage adc_value) (main_sense adc_value false st)).portd
        = issue (line1_rewrites (lps ++ lps')) (main_reset p).portd := by
      rw [hportd', hportd, line1_rewrites_append, issue_append]
    refine ⟨st, _, line1_rewrites (lps ++ lps'), hrun,
      main_line1_eq _ (light_percentage_lt adc_value) _, ?_, emitted_self _, ?_, ?_, ?_, ?_, ?_⟩
    · rw [main_line2_eq, hfix]
    · rw [main_loop_eq, hfix]
    · rw [main_run_append, hrun]
      simp only [Option.some_bind, main_run, main_loop_eq, hfix]
    · rw [hp]
      exact traffic_issue _ (fun t ht => (line1_rewrites_mem _ t ht).1) _
    · intro hmem
      exact (line1_rewrites_mem _ _ hmem).2 rfl
    · intro cursor c hc
      exact cells_line1_rewrites _ hall cursor c hc
  · intro hin
    obtain ⟨st, n, hrun, hportd, hl1, hl2⟩ := run_dark inputs (main_reset p) hin rfl rfl
    obtain ⟨hsame, n', hportd', -, -⟩ := step_dark st hl1 hl2
    have hp : (after_line2 (main_sense 1023 false st)).portd
        = issue (line2_rewrites (n + n')) (main_reset p).portd := by
      rw [hportd', hportd, line2_rewrites_add, issue_append]
    have hsp : (main_sense 1023 false st).portd = st.portd := by rw [main_sense_eq]
    refine ⟨st, _, _, line2_rewrites (n + n'), hrun,
      main_line1_eq _ (light_percentage_lt 1023) _, hsame, ?_, main_line2_eq _, ?_, ?_, ?_, ?_, ?_⟩
    · rw [hsame, hsp]
      exact emitted_self _
    · rw [main_loop_eq]
    · rw [main_run_append, hrun]
      simp only [Option.some_bind, main_run, main_loop_eq]
    · rw [hsame, hp]
      exact traffic_issue _ (fun t ht => (line2_rewrites_mem _ t ht).1) _
    · intro hmem
      exact (line2_rewrites_mem _ _ hmem).2 rfl
    · intro cursor c hc
      exact cells_line2_rewrites _ cursor c hc

end SmartHome
